import Mathlib

/-!
Verification of the bench-format reader/writer core of the `cirbo` ABC extensions
(`src/extensions/abc_wrapper/src/run_abc.h` and `src/extensions/abc_extension/src/main.c`).

Text is modelled as `List Char` (one `Char` per input byte; all configured
character sets are ASCII).  The statement dispatcher (`Io_ReadBenchNetwork`),
the writer (`Io_WriteBenchOne` / `Io_WriteBenchOneNode`) and the character-map
construction of `Extra_FileReaderAllocFromString` are translated from the
sources.  The token stream (`Extra_FileReaderGetTokens`), the net/graph builder
helpers (`Io_ReadCreatePi/Po/Node/Latch`, `Abc_NtkFindOrCreateNet`,
`Abc_NtkFinalizeRead`, `Io_ReadCreateConst`) and the truth-table helpers
(`Extra_ReadHexadecimal`, `Extra_TruthIsConst0/1`) are not part of these
sources and are modelled from the specification where marked.
-/

/-- A byte string, one `Char` per byte. -/
abbrev Str := List Char

/-- The four character classes of `Extra_CharType_t`. -/
inductive ExtraCharType
  | comment
  | normal
  | stop
  | clean
deriving DecidableEq, Repr

/-- One C `for` loop of `Extra_FileReaderAllocFromString`: write class `t`
into the 256-entry map at every byte of the set string `s`. -/
def setCharClass (m : Nat → ExtraCharType) (s : List Char) (t : ExtraCharType) :
    Nat → ExtraCharType :=
  s.foldl (fun m c => fun b => if b = c.toNat then t else m b) m

/-- The character map of `Extra_FileReaderAllocFromString`: all 256 entries are
initialized to `EXTRA_CHAR_NORMAL` by `memset`, then the comment, stop and
clean set strings are written in that order. -/
def extraCharMap (charsComment charsStop charsClean : List Char) :
    Nat → ExtraCharType :=
  setCharClass
    (setCharClass
      (setCharClass (fun _ => ExtraCharType.normal) charsComment .comment)
      charsStop .stop)
    charsClean .clean

/-- The three caller-supplied character sets of one reader session. -/
structure RdCfg where
  charsComment : List Char
  charsStop : List Char
  charsClean : List Char

/-- Class of one input byte under a configuration. -/
def RdCfg.classOf (cfg : RdCfg) (c : Char) : ExtraCharType :=
  extraCharMap cfg.charsComment cfg.charsStop cfg.charsClean c.toNat

/-- The configuration used by `runAbcCommands`:
`Extra_FileReaderAllocFromString(pFileContent, "#", "\n\r", " \t,()=")`. -/
def benchCfg : RdCfg :=
  ⟨"#".data, "\n\r".data, " \t,()=".data⟩

/-- One step of splitting the input at Stop bytes (right fold state:
completed later lines, current line). -/
def stopStep (isSt : Char → Bool) (c : Char) (acc : List Str × Str) :
    List Str × Str :=
  if isSt c then (acc.2 :: acc.1, []) else (acc.1, c :: acc.2)

/-- Modelled from the spec: the tokenizer (§4.1, §3 Token) delimits statements
at Stop bytes, each Stop byte incrementing the line counter; end-of-input
flushes the final (possibly empty) partial line.  `Extra_FileReaderGetTokens`
is not part of the sources. -/
def splitStops (isSt : Char → Bool) (cs : List Char) : List Str :=
  let r := cs.foldr (stopStep isSt) ([], [])
  r.2 :: r.1

/-- One step of grouping the Normal bytes of a line into tokens (right fold
state: completed later tokens, current token). -/
def tokStep (isCl : Char → Bool) (c : Char) (acc : List Str × Str) :
    List Str × Str :=
  if isCl c then (if acc.2 = [] then acc.1 else acc.2 :: acc.1, [])
  else (acc.1, c :: acc.2)

/-- Modelled from the spec: Clean bytes are zero-width separators that are
never emitted as part of a token (§4.1); a run of non-Clean bytes forms one
token, and end-of-line flushes the final partial token. -/
def tokensOf (isCl : Char → Bool) (cs : List Char) : List Str :=
  let r := cs.foldr (tokStep isCl) ([], [])
  if r.2 = [] then r.1 else r.2 :: r.1

/-- Modelled from the spec: within one physical line a Comment byte discards
the rest of the line (§4.1); the remaining bytes are grouped into tokens at
Clean bytes. -/
def lineTokens (cfg : RdCfg) (cs : Str) : List Str :=
  tokensOf (fun c => decide (cfg.classOf c = .clean))
    (cs.takeWhile (fun c => !decide (cfg.classOf c = .comment)))

/-- Pair every statement with its 1-based physical line number. -/
def withLines : Nat → List (List Str) → List (Nat × List Str)
  | _, [] => []
  | i, t :: ts => (i, t) :: withLines (i + 1) ts

/-- Modelled from the spec: the full token stream handed to
`Io_ReadBenchNetwork` — physical lines split at Stop bytes (each Stop byte
counts one line, counting from 1), tokens grouped at Clean bytes after comment
discarding, and statements without any token skipped (`Extra_FileReaderGetTokens`
only returns non-empty token vectors). -/
def fileReaderTokens (cfg : RdCfg) (cs : Str) : List (Nat × List Str) :=
  (withLines 1
      ((splitStops (fun c => decide (cfg.classOf c = .stop)) cs).map
        (lineTokens cfg))).filter
    (fun s => !s.2.isEmpty)

/-- Function descriptor of a gate node: the symbolic covers registered by
`Io_ReadBenchNetwork` (`Abc_SopCreateAnd`, …, `" 0\n"`, `" 1\n"`) and the
truth-table cover of a multi-input LUT (`Abc_SopCreateFromTruth`). -/
inductive GateFn
  | and
  | or
  | nand
  | nor
  | xor
  | nxor
  | buf
  | inv
  | mux
  | const0
  | const1
  | table (tt : Nat) (nIns : Nat)
deriving DecidableEq, Repr

/-- Initial value tag of a latch (`Abc_LatchSetInit0/1/Dc`). -/
inductive LatchInit
  | init0
  | init1
  | dc
deriving DecidableEq, Repr

/-- A gate node: output net name, ordered fanin net names, function. -/
structure BNode where
  out : Str
  fanins : List Str
  fn : GateFn
deriving DecidableEq, Repr

/-- A latch: output net name, data input net name, initial value. -/
structure BLatch where
  out : Str
  inp : Str
  init : LatchInit
deriving DecidableEq, Repr

/-- Modelled from the spec: the name-keyed gate graph built during one parse
(§3 Graph) — ordered primary inputs, primary outputs, latches and gate nodes,
plus the constraint counter `nConstrs` incremented by the scan-chain branch.
The ABC network structure `Abc_Ntk_t` is not part of the sources. -/
structure Netlist where
  pis : List Str
  pos : List Str
  latches : List BLatch
  nodes : List BNode
  nConstrs : Nat
deriving DecidableEq, Repr

/-- Parser state: the network under construction and the `fLutsPresent` flag. -/
structure RdState where
  net : Netlist
  lutsPresent : Bool
deriving DecidableEq, Repr

/-- The empty state at the start of `Io_ReadBenchNetwork`. -/
def rdInit : RdState := ⟨⟨[], [], [], [], 0⟩, false⟩

/-- Failure modes of `Io_ReadBenchNetwork` (each corresponds to one
`printf`-and-abort site of the source). -/
inductive RdErr
  | wrongFormat
  | lutTooManyIns (n : Nat)
  | lutBadHex (s : Str)
  | lutHexDigit (s : Str)
  | lutSingleIn (s : Str)
  | unknownGate (kw : Str) (line : Nat)
  | unresolved (name : Str)
deriving DecidableEq, Repr

/-- `strncmp(a, b, n) == 0` on NUL-free byte strings: the first `n` bytes
agree (comparison stops at the end of the shorter string). -/
abbrev strncmpEq (a b : Str) (n : Nat) : Prop :=
  a.take n = b.take n

/-- Value of one hexadecimal digit character, as read by
`Extra_ReadHexadecimal` (`0-9`, `A-F`, `a-f`). -/
def hexDigitVal (c : Char) : Option Nat :=
  let v := c.toNat
  if '0'.toNat ≤ v ∧ v ≤ '9'.toNat then
    some (v - '0'.toNat)
  else if 'A'.toNat ≤ v ∧ v ≤ 'F'.toNat then
    some (v - 'A'.toNat + 10)
  else if 'a'.toNat ≤ v ∧ v ≤ 'f'.toNat then
    some (v - 'a'.toNat + 10)
  else
    none

/-- Modelled from the spec: big-endian value of a hex digit string (§4.2 rule
3: the third token is a hexadecimal literal, decoded into a truth-table
bit-vector).  `Extra_ReadHexadecimal` is not part of the sources; it reads the
digits most-significant first and fails on a non-hex character. -/
def readHexVal : List Char → Option Nat
  | [] => some 0
  | c :: cs =>
    match hexDigitVal c, readHexVal cs with
    | some d, some r => some (d * 16 ^ cs.length + r)
    | _, _ => none

/-- `Extra_TruthWordNum`: number of 32-bit words holding a `n`-input truth
table (1 word up to 5 inputs, `2^(n-5)` beyond). -/
def truthWordNum (n : Nat) : Nat :=
  if n ≤ 5 then 1 else 2 ^ (n - 5)

/-- Modelled from the spec: `Extra_TruthIsConst1` (not part of the sources)
tests the word-padded table for all-ones — the decoded value must fill every
32-bit word of the table.  The spec fixes this word-level reading: a
single-input `0x3` table is *not* constant and must fail (§4.2 rule 3, §8
LUT-decode vectors). -/
def truthIsConst1 (val : Nat) (nIns : Nat) : Prop :=
  val = 2 ^ (32 * truthWordNum nIns) - 1

instance (val nIns : Nat) : Decidable (truthIsConst1 val nIns) := by
  unfold truthIsConst1; infer_instance

/-- Number of hex digits expected for `n` inputs: `(1 << n) / 4`, with a
minimum of 1. -/
def lutDigits (nIns : Nat) : Nat :=
  let d := 2 ^ nIns / 4
  if d = 0 then 1 else d

/-- The zero left-padding of the hex digits (`Vec_StrFill`): pad to
`lutDigits` characters when the string is shorter. -/
def padHex (ds : Str) (nDigits : Nat) : Str :=
  if ds.length < nDigits then List.replicate (nDigits - ds.length) '0' ++ ds
  else ds

/-- Initial-value tag derived from `pType[3]`, the character following
`"DFF"` in the keyword: `'0'` gives init-0, `'1'` gives init-1, anything else
gives don't-care (when the keyword ends right after `"DFF"`, C reads the NUL
terminator, which is neither; the `' '` default plays its role — a space can
never occur inside a token). -/
def dffInitOf (kw : Str) : LatchInit :=
  if (kw.drop 3).headD ' ' = '0' then .init0
  else if (kw.drop 3).headD ' ' = '1' then .init1
  else .dc

/-- The keyword matching of the primitive-gate branch of
`Io_ReadBenchNetwork`, in source order: exact upper- or lower-case spellings
for AND/OR/NAND/NOR/XOR/NXOR-XNOR/NOT, a 3-byte `strncmp` prefix for `BUF` and
`MUX` (plus exact `"buf"`/`"mux"`), and a 3-byte lower-case prefix for
`gnd`/`vdd`. -/
def matchKw (t : Str) : Option GateFn :=
  if t = "AND".data ∨ t = "and".data then some .and
  else if t = "OR".data ∨ t = "or".data then some .or
  else if t = "NAND".data ∨ t = "nand".data then some .nand
  else if t = "NOR".data ∨ t = "nor".data then some .nor
  else if t = "XOR".data ∨ t = "xor".data then some .xor
  else if t = "NXOR".data ∨ t = "XNOR".data ∨ t = "nxor".data ∨ t = "xnor".data then
    some .nxor
  else if strncmpEq t "BUF".data 3 ∨ t = "buf".data then some .buf
  else if t = "NOT".data ∨ t = "not".data then some .inv
  else if strncmpEq t "MUX".data 3 ∨ t = "mux".data then some .mux
  else if strncmpEq t "gnd".data 3 then some .const0
  else if strncmpEq t "vdd".data 3 then some .const1
  else none

/-- The `LUT` branch of `Io_ReadBenchNetwork`: `t0` is the output name, `hex`
the signature token (`vTokens->pArray[2]`), `inNames` the input-net operands
(`vTokens->pArray + 3`, so `nNames = vTokens->nSize - 3`).  The branch sets
`fLutsPresent`, bounds the input count at 15, demands the `0x` prefix,
left-pads the digits, decodes the table, reduces constant tables to 0-input
nodes, and reduces a single-input table to buffer (`'2'`) or inverter
(`'1'`) — anything else fails. -/
def ioReadBenchLut (st : RdState) (t0 hex : Str) (inNames : List Str) :
    Except RdErr RdState :=
  let st := { st with lutsPresent := true }
  let nNames := inNames.length
  if nNames > 15 then .error (.lutTooManyIns nNames)
  else if ¬ strncmpEq hex "0x".data 2 then .error (.lutBadHex hex)
  else
    let padded := padHex (hex.drop 2) (lutDigits nNames)
    match readHexVal (padded.take (lutDigits nNames)) with
    | none => .error (.lutHexDigit padded)
    | some val =>
      if val = 0 then
        .ok { st with net := { st.net with
          nodes := st.net.nodes ++ [⟨t0, [], .const0⟩] } }
      else if truthIsConst1 val nNames then
        .ok { st with net := { st.net with
          nodes := st.net.nodes ++ [⟨t0, [], .const1⟩] } }
      else if nNames > 1 then
        .ok { st with net := { st.net with
          nodes := st.net.nodes ++ [⟨t0, inNames, .table val nNames⟩] } }
      else if padded.getD 0 ' ' = '2' then
        .ok { st with net := { st.net with
          nodes := st.net.nodes ++ [⟨t0, inNames, .buf⟩] } }
      else if padded.getD 0 ' ' = '1' then
        .ok { st with net := { st.net with
          nodes := st.net.nodes ++ [⟨t0, inNames, .inv⟩] } }
      else .error (.lutSingleIn padded)

/-- One statement of `Io_ReadBenchNetwork`'s main loop, translated from the
source dispatch chain.  `ts` is the token vector of the statement and `line`
the line number reported by `Extra_FileReaderGetLineNumber(p, 0)`.
Out-of-range `vTokens->pArray[i]` accesses of the C code (possible for
operand-less `DFF` statements) are modelled as the empty string. -/
def ioReadBenchStmt (st : RdState) (line : Nat) (ts : List Str) :
    Except RdErr RdState :=
  if ts.length = 1 then .error .wrongFormat
  else
    let t0 := ts.getD 0 []
    if strncmpEq t0 "INPUT".data 5 then
      .ok { st with net := { st.net with pis := st.net.pis ++ [ts.getD 1 []] } }
    else if strncmpEq t0 "OUTPUT".data 5 then
      .ok { st with net := { st.net with pos := st.net.pos ++ [ts.getD 1 []] } }
    else
      let pType := ts.getD 1 []
      if strncmpEq pType "DFF".data 3 then
        if ts.length = 6 then
          let ops := ts.drop 2
          .ok { st with net := { st.net with
            pis := st.net.pis ++ [t0],
            pos := st.net.pos ++ ops.map (fun o => t0 ++ '_' :: o),
            nodes := st.net.nodes ++ ops.map (fun o => ⟨t0 ++ '_' :: o, [o], .buf⟩),
            nConstrs := st.net.nConstrs + 1 } }
        else
          .ok { st with net := { st.net with
            latches := st.net.latches ++ [⟨t0, ts.getD 2 [], dffInitOf pType⟩] } }
      else if pType = "LUT".data then
        ioReadBenchLut st t0 (ts.getD 2 []) (ts.drop 3)
      else
        match matchKw pType with
        | some fn =>
          .ok { st with net := { st.net with
            nodes := st.net.nodes ++ [⟨t0, ts.drop 2, fn⟩] } }
        | none => .error (.unknownGate pType line)

/-- The main loop of `Io_ReadBenchNetwork` over the statement stream. -/
def ioReadBenchStmts (st : RdState) : List (Nat × List Str) → Except RdErr RdState
  | [] => .ok st
  | (ln, ts) :: rest =>
    match ioReadBenchStmt st ln ts with
    | .error e => .error e
    | .ok st' => ioReadBenchStmts st' rest

/-- Modelled from the spec: all names for which a net object exists after the
main loop (§4.3: resolving a name for the first time allocates a Net) — every
name registered as a primary input or output, as a node output or fanin, or as
a latch terminal. -/
def allNetNames (g : Netlist) : List Str :=
  g.pis ++ g.pos ++ g.nodes.map (·.out) ++ g.nodes.flatMap (·.fanins) ++
    g.latches.map (·.out) ++ g.latches.map (·.inp)

/-- `Abc_NtkFindNet` finds a net object for the name. -/
abbrev netExists (g : Netlist) (n : Str) : Prop :=
  n ∈ allNetNames g

/-- The net already has a driver (`Abc_ObjFaninNum(pNet) > 0`): it is fed by a
primary input, a gate node, or a latch output. -/
abbrev netDriven (g : Netlist) (n : Str) : Prop :=
  n ∈ g.pis ∨ n ∈ g.nodes.map (·.out) ∨ n ∈ g.latches.map (·.out)

/-- One post-loop constant check of `Io_ReadBenchNetwork`: when a net object
named `name` exists but has no fanin, create a zero-input constant node
driving it (`Io_ReadCreateConst`). -/
def constCheck (g : Netlist) (name : Str) (fn : GateFn) : Netlist :=
  if netExists g name ∧ ¬ netDriven g name then
    { g with nodes := g.nodes ++ [⟨name, [], fn⟩] }
  else g

/-- The four post-loop constant checks of `Io_ReadBenchNetwork`, in source
order: an existing but undriven net named `"gnd"` or `"1"` receives a
zero-input constant-0 node, an existing but undriven net named `"vdd"` or
`"2"` a zero-input constant-1 node. -/
def ioReadBenchConsts (g : Netlist) : Netlist :=
  constCheck
    (constCheck (constCheck (constCheck g "gnd".data .const0) "1".data .const0)
      "vdd".data .const1)
    "2".data .const1

/-- Modelled from the spec: `Abc_NtkFinalizeRead` (not part of the sources)
resolves every declared-but-not-yet-driven reference; an input name that was
never declared as an output, input, or constant is a fatal
unresolved-reference error (§4.3(c), §8 unresolved-reference vector). -/
def ioReadBenchResolve (g : Netlist) : Except RdErr Netlist :=
  match (g.nodes.flatMap (·.fanins) ++ g.pos ++ g.latches.map (·.inp)).find?
      (fun n => !decide (netDriven g n)) with
  | some n => .error (.unresolved n)
  | none => .ok g

/-- `Io_ReadBenchNetwork` over an in-memory buffer: tokenize, run the
statement loop, synthesize the reserved constants, finalize.  (When LUTs are
present the source additionally collapses the truth-table covers through
BDDs — per §4.3 this changes only the node functions' representation, never
the net names or fanin structure modelled here.) -/
def ioReadBenchNetwork (cfg : RdCfg) (text : Str) : Except RdErr Netlist :=
  match ioReadBenchStmts rdInit (fileReaderTokens cfg text) with
  | .error e => .error e
  | .ok st => ioReadBenchResolve (ioReadBenchConsts st.net)

/-- `%-11s`: left-justified, space-padded to a minimum width of 11. -/
def padTo11 (s : Str) : Str :=
  s ++ List.replicate (11 - s.length) ' '

/-- `Io_WriteBenchOneNode`, translated from the source: a 0-fanin node prints
`name = vdd`, a 1-fanin node prints `BUFF` or `NOT` depending on
`Abc_NodeIsBuf`, and every other node prints `AND` of its first two fanins. -/
def ioWriteBenchOneNode (n : BNode) : Str :=
  if n.fanins.length = 0 then
    padTo11 n.out ++ " = vdd\n".data
  else if n.fanins.length = 1 then
    if n.fn = .buf then
      padTo11 n.out ++ " = BUFF(".data ++ n.fanins.getD 0 [] ++ ")\n".data
    else
      padTo11 n.out ++ " = NOT(".data ++ n.fanins.getD 0 [] ++ ")\n".data
  else
    padTo11 n.out ++ " = AND(".data ++ n.fanins.getD 0 [] ++ ", ".data ++
      n.fanins.getD 1 [] ++ ")\n".data

/-- `Io_WriteBenchOne`, translated from the source: primary inputs in order,
then primary outputs, then latches as `name = DFF(driver)`, then every
internal node through `Io_WriteBenchOneNode`. -/
def ioWriteBenchOne (g : Netlist) : Str :=
  g.pis.flatMap (fun n => "INPUT(".data ++ n ++ ")\n".data) ++
    g.pos.flatMap (fun n => "OUTPUT(".data ++ n ++ ")\n".data) ++
    g.latches.flatMap (fun l => padTo11 l.out ++ " = DFF(".data ++ l.inp ++ ")\n".data) ++
    g.nodes.flatMap ioWriteBenchOneNode

/-- Spec-side reading of the keyword table: the exact spellings accepted by
the primitive-gate branch — all-upper or all-lower exact forms, the upper-case
3-byte prefixes `BUF`/`MUX` (plus exact `"buf"`/`"mux"`), and the lower-case
3-byte prefixes `gnd`/`vdd`.  Stated independently of `matchKw` to compare the
two. -/
def acceptedKwSpecB (t : Str) : Bool :=
  decide (t ∈ ["AND".data, "and".data, "OR".data, "or".data, "NAND".data,
    "nand".data, "NOR".data, "nor".data, "XOR".data, "xor".data, "NXOR".data,
    "XNOR".data, "nxor".data, "xnor".data, "NOT".data, "not".data, "buf".data,
    "mux".data]) ||
  decide (t.take 3 = "BUF".data) || decide (t.take 3 = "MUX".data) ||
  decide (t.take 3 = "gnd".data) || decide (t.take 3 = "vdd".data)

/-- Spec-side per-node text form (§4.4): 0 inputs → `name = vdd`; 1 input →
`BUFF` or `NOT` by function tag; 2 inputs → the `AND` spelling regardless of
the function tag.  Nodes with more than 2 inputs are outside the serializer
precondition and map to the empty string here. -/
def benchNodeLineSpec (n : BNode) : Str :=
  match n.fanins with
  | [] => padTo11 n.out ++ " = vdd\n".data
  | [x] =>
    if n.fn = .buf then padTo11 n.out ++ " = BUFF(".data ++ x ++ ")\n".data
    else padTo11 n.out ++ " = NOT(".data ++ x ++ ")\n".data
  | [x, y] =>
    padTo11 n.out ++ " = AND(".data ++ x ++ ", ".data ++ y ++ ")\n".data
  | _ => []

/-- Spec-side emission order (§4.4): all primary inputs in declaration order,
then all primary outputs, then all latches as `name = DFF(driver)`, then all
remaining nodes in graph-internal order. -/
def ioWriteBenchSpec (g : Netlist) : Str :=
  g.pis.flatMap (fun n => "INPUT(".data ++ n ++ ")\n".data) ++
    g.pos.flatMap (fun n => "OUTPUT(".data ++ n ++ ")\n".data) ++
    g.latches.flatMap (fun l => padTo11 l.out ++ " = DFF(".data ++ l.inp ++ ")\n".data) ++
    g.nodes.flatMap benchNodeLineSpec

/-- A net name that survives a serialize/re-parse round trip untouched by the
tokenizer: non-empty and made of Normal bytes only (no comment, stop or clean
bytes of the configuration). -/
def wfName (nm : Str) : Bool :=
  !nm.isEmpty && nm.all (fun c => decide (benchCfg.classOf c = .normal))

/-- Round-trip well-formedness of one gate node: a plain output name that the
dispatcher will not mistake for an `INPUT`/`OUTPUT` statement (the source
compares only the first 5 bytes), plain fanin names, and one of the claim's
gate shapes — a 2-input AND, a 1-input buffer, or a 1-input inverter. -/
def wfC1Node (n : BNode) : Bool :=
  wfName n.out && !(decide (strncmpEq n.out "INPUT".data 5)) &&
    !(decide (strncmpEq n.out "OUTPUT".data 5)) &&
    n.fanins.all wfName &&
    ((decide (n.fn = GateFn.and) && n.fanins.length == 2) ||
      ((decide (n.fn = GateFn.buf) || decide (n.fn = GateFn.inv)) &&
        n.fanins.length == 1))

/-- Round-trip well-formedness of a graph built purely from 2-input AND and
1-input BUFFER/INVERTER gates: no latches, plain primary input/output names,
well-formed nodes, and completeness — every net consumed by a primary output
or a gate fanin is driven by a primary input or some node. -/
def wfC1 (g : Netlist) : Bool :=
  g.latches.isEmpty && g.pis.all wfName && g.pos.all wfName &&
    g.nodes.all wfC1Node &&
    (g.pos ++ g.nodes.flatMap (·.fanins)).all
      (fun nm => decide (nm ∈ g.pis) || decide (nm ∈ g.nodes.map (·.out)))

/-- The serialized line of a well-formed round-trip node, without the trailing
newline. -/
def c1NodeLine (n : BNode) : Str :=
  if n.fn = .buf then
    padTo11 n.out ++ " = BUFF(".data ++ n.fanins.getD 0 [] ++ [')']
  else if n.fn = .inv then
    padTo11 n.out ++ " = NOT(".data ++ n.fanins.getD 0 [] ++ [')']
  else
    padTo11 n.out ++ " = AND(".data ++ n.fanins.getD 0 [] ++ ", ".data ++
      n.fanins.getD 1 [] ++ [')']

/-- The physical lines (without terminators) the writer emits for a
round-trip graph. -/
def c1Lines (g : Netlist) : List Str :=
  g.pis.map (fun n => "INPUT".data ++ ['('] ++ n ++ [')']) ++
    g.pos.map (fun n => "OUTPUT".data ++ ['('] ++ n ++ [')']) ++
    g.nodes.map c1NodeLine

/-- The token vector the tokenizer recovers from one node line. -/
def c1NodeTokens (n : BNode) : List Str :=
  n.out ::
    (if n.fn = .buf then "BUFF".data else if n.fn = .inv then "NOT".data
      else "AND".data) :: n.fanins

/-- The statement stream the tokenizer recovers from a serialized round-trip
graph. -/
def c1Stmts (g : Netlist) : List (List Str) :=
  g.pis.map (fun nm => ["INPUT".data, nm]) ++
    g.pos.map (fun nm => ["OUTPUT".data, nm]) ++
    g.nodes.map c1NodeTokens

/-! ### General lemmas -/

theorem snoc_ne {α : Type} (l : List α) (x : α) : l ++ [x] ≠ l := by
  intro h
  have h' := congrArg List.length h
  simp at h'

theorem setCharClass_not_mem {m : Nat → ExtraCharType} {s : List Char}
    {t : ExtraCharType} {b : Nat} (h : b ∉ s.map Char.toNat) :
    setCharClass m s t b = m b := by
  induction s generalizing m with
  | nil => rfl
  | cons c cs ih =>
    simp only [List.map_cons, List.mem_cons, not_or] at h
    show setCharClass (fun b' => if b' = c.toNat then t else m b') cs t b = m b
    rw [ih h.2]
    simp [h.1]

theorem netDriven_addNode {g : Netlist} {nm : Str} {fl : List Str}
    {fn : GateFn} {n : Str} :
    netDriven { g with nodes := g.nodes ++ [⟨nm, fl, fn⟩] } n ↔
      netDriven g n ∨ n = nm := by
  simp only [netDriven, List.map_append, List.mem_append, List.map_cons,
    List.map_nil, List.mem_singleton]
  tauto

theorem netExists_addConstNode {g : Netlist} {nm : Str} {fn : GateFn} {n : Str} :
    netExists { g with nodes := g.nodes ++ [⟨nm, [], fn⟩] } n ↔
      netExists g n ∨ n = nm := by
  simp only [netExists, allNetNames, List.map_append, List.flatMap_append,
    List.mem_append, List.map_cons, List.map_nil, List.mem_singleton,
    List.flatMap_cons, List.flatMap_nil, List.append_nil, List.not_mem_nil,
    or_false, false_or]
  tauto

theorem constCheck_nodes_mono {g : Netlist} {nm : Str} {fn : GateFn} {b : BNode}
    (h : b ∈ g.nodes) : b ∈ (constCheck g nm fn).nodes := by
  unfold constCheck
  split
  · simp only [List.mem_append]
    exact Or.inl h
  · exact h

theorem constCheck_driven_mono {g : Netlist} {nm : Str} {fn : GateFn} {n : Str}
    (h : netDriven g n) : netDriven (constCheck g nm fn) n := by
  unfold constCheck
  split
  · exact netDriven_addNode.mpr (Or.inl h)
  · exact h

theorem constCheck_preserve {g : Netlist} {n : Str} (nm : Str) (fn : GateFn)
    (hne : n ≠ nm) (hex : netExists g n) (hun : ¬ netDriven g n) :
    netExists (constCheck g nm fn) n ∧ ¬ netDriven (constCheck g nm fn) n := by
  unfold constCheck
  split
  · refine ⟨netExists_addConstNode.mpr (Or.inl hex), ?_⟩
    rw [netDriven_addNode]
    rintro (h | h)
    · exact hun h
    · exact hne h
  · exact ⟨hex, hun⟩

theorem constCheck_fire (fn : GateFn) {g : Netlist} {nm : Str}
    (hex : netExists g nm) (hun : ¬ netDriven g nm) :
    (⟨nm, [], fn⟩ : BNode) ∈ (constCheck g nm fn).nodes ∧
      netDriven (constCheck g nm fn) nm := by
  unfold constCheck
  rw [if_pos ⟨hex, hun⟩]
  refine ⟨by simp, ?_⟩
  exact netDriven_addNode.mpr (Or.inr rfl)

/-! ### C6 -/

/-- C6: for every choice of the three caller-supplied character sets and every
byte value 0–255, the character-class table of
`Extra_FileReaderAllocFromString` assigns the byte exactly one of the four
classes, and a byte belonging to none of the three sets is classified
Normal. -/
theorem charMap_classification (cc cs cl : List Char) (b : Nat)
    (hb : b < 256) :
    (∃! t : ExtraCharType, extraCharMap cc cs cl b = t) ∧
    (b ∉ cc.map Char.toNat → b ∉ cs.map Char.toNat → b ∉ cl.map Char.toNat →
      extraCharMap cc cs cl b = .normal) := by
  refine ⟨⟨extraCharMap cc cs cl b, rfl, fun y h => h.symm⟩, fun h1 h2 h3 => ?_⟩
  unfold extraCharMap
  rw [setCharClass_not_mem h3, setCharClass_not_mem h2, setCharClass_not_mem h1]

/-- Witness for C6 at the bench configuration and byte 65 (`'A'`). -/
theorem charMap_classification_witness :
    (65 : Nat) < 256 ∧
      extraCharMap "#".data "\n\r".data " \t,()=".data 65 = .normal :=
  ⟨by decide,
    (charMap_classification "#".data "\n\r".data " \t,()=".data 65
          (by decide)).2
      (by decide) (by decide) (by decide)⟩

/-! ### C2 -/

/-- C2 counterexample: a 3-input AND node is not rejected at write time — the
serializer emits an `AND` statement of the first two fanins and drops the
third (`c` does not occur in the output). -/
theorem writeNode_no_reject_cx :
    (⟨"y".data, ["a".data, "b".data, "c".data], GateFn.and⟩ : BNode).fanins.length
        > 2 ∧
      ioWriteBenchOneNode ⟨"y".data, ["a".data, "b".data, "c".data], GateFn.and⟩ =
        "y           = AND(a, b)\n".data ∧
      'c' ∉ ioWriteBenchOneNode
        ⟨"y".data, ["a".data, "b".data, "c".data], GateFn.and⟩ := by
  refine ⟨by decide, by decide, by decide⟩

/-- C2 amended: the serializer never rejects a node with more than 2 inputs;
for every node with at least two fanins it emits `name = AND(f0, f1)` over the
first two fanins, silently ignoring the rest (there is no
serialization-precondition error path in `Io_WriteBenchOneNode`). -/
theorem writeNode_truncates (out x y : Str) (rest : List Str) (fn : GateFn) :
    ioWriteBenchOneNode ⟨out, x :: y :: rest, fn⟩ =
      padTo11 out ++ " = AND(".data ++ x ++ ", ".data ++ y ++ ")\n".data := by
  simp [ioWriteBenchOneNode]

/-! ### C10 -/

/-- C10: after the statement loop, a net named `"1"` (resp. `"2"`) that exists
but has no driver receives a synthesized zero-input constant-0 (resp.
constant-1) node, which drives it from then on (so it is not reported as an
unresolved reference). -/
theorem undriven_named_consts (g : Netlist) :
    (netExists g "1".data → ¬ netDriven g "1".data →
      (⟨"1".data, [], GateFn.const0⟩ : BNode) ∈ (ioReadBenchConsts g).nodes ∧
        netDriven (ioReadBenchConsts g) "1".data) ∧
    (netExists g "2".data → ¬ netDriven g "2".data →
      (⟨"2".data, [], GateFn.const1⟩ : BNode) ∈ (ioReadBenchConsts g).nodes ∧
        netDriven (ioReadBenchConsts g) "2".data) := by
  constructor
  · intro hex hun
    have h1 := constCheck_preserve "gnd".data GateFn.const0
      (by decide) hex hun
    have h2 := constCheck_fire GateFn.const0 h1.1 h1.2
    unfold ioReadBenchConsts
    exact ⟨constCheck_nodes_mono (constCheck_nodes_mono h2.1),
      constCheck_driven_mono (constCheck_driven_mono h2.2)⟩
  · intro hex hun
    have h1 := constCheck_preserve "gnd".data GateFn.const0
      (by decide) hex hun
    have h2 := constCheck_preserve "1".data GateFn.const0
      (by decide) h1.1 h1.2
    have h3 := constCheck_preserve "vdd".data GateFn.const1
      (by decide) h2.1 h2.2
    have h4 := constCheck_fire GateFn.const1 h3.1 h3.2
    unfold ioReadBenchConsts
    exact h4

/-- Witness for C10: a graph whose only reference to `"1"` (a primary-output
net) and to `"2"` (a gate fanin) is undriven. -/
theorem undriven_named_consts_witness :
    (⟨"1".data, [], GateFn.const0⟩ : BNode) ∈
        (ioReadBenchConsts ⟨[], ["1".data], [],
          [⟨"y".data, ["2".data], GateFn.buf⟩], 0⟩).nodes ∧
      (⟨"2".data, [], GateFn.const1⟩ : BNode) ∈
        (ioReadBenchConsts ⟨[], ["1".data], [],
          [⟨"y".data, ["2".data], GateFn.buf⟩], 0⟩).nodes := by
  have h := undriven_named_consts
    ⟨[], ["1".data], [], [⟨"y".data, ["2".data], GateFn.buf⟩], 0⟩
  exact ⟨(h.1 (by decide) (by decide)).1, (h.2 (by decide) (by decide)).1⟩

/-! ### Dispatch lemmas for `ioReadBenchStmt` -/

theorem readStmt_input (st : RdState) (ln : Nat) (t0 nm : Str) (rest : List Str)
    (h : strncmpEq t0 "INPUT".data 5) :
    ioReadBenchStmt st ln (t0 :: nm :: rest) =
      .ok { st with net := { st.net with pis := st.net.pis ++ [nm] } } := by
  simp [ioReadBenchStmt, h]

theorem readStmt_output (st : RdState) (ln : Nat) (t0 nm : Str) (rest : List Str)
    (h0 : ¬ strncmpEq t0 "INPUT".data 5) (h1 : strncmpEq t0 "OUTPUT".data 5) :
    ioReadBenchStmt st ln (t0 :: nm :: rest) =
      .ok { st with net := { st.net with pos := st.net.pos ++ [nm] } } := by
  simp [ioReadBenchStmt, h0, h1]

theorem readStmt_gate (st : RdState) (ln : Nat) (t0 kw : Str) (args : List Str)
    (h0 : ¬ strncmpEq t0 "INPUT".data 5) (h1 : ¬ strncmpEq t0 "OUTPUT".data 5)
    (h2 : ¬ strncmpEq kw "DFF".data 3) (h3 : kw ≠ "LUT".data) :
    ioReadBenchStmt st ln (t0 :: kw :: args) =
      match matchKw kw with
      | some fn =>
        .ok { st with net := { st.net with
          nodes := st.net.nodes ++ [⟨t0, args, fn⟩] } }
      | none => .error (.unknownGate kw ln) := by
  simp [ioReadBenchStmt, h0, h1, h2, h3]

theorem readStmt_lut (st : RdState) (ln : Nat) (t0 : Str) (args : List Str)
    (h0 : ¬ strncmpEq t0 "INPUT".data 5) (h1 : ¬ strncmpEq t0 "OUTPUT".data 5) :
    ioReadBenchStmt st ln (t0 :: "LUT".data :: args) =
      ioReadBenchLut st t0 (args.getD 0 []) args.tail := by
  simp [ioReadBenchStmt, h0, h1,
    (by decide : ¬ strncmpEq "LUT".data "DFF".data 3)]

theorem readStmt_dff_scan (st : RdState) (ln : Nat) (t0 kw : Str)
    (args : List Str)
    (h0 : ¬ strncmpEq t0 "INPUT".data 5) (h1 : ¬ strncmpEq t0 "OUTPUT".data 5)
    (h2 : strncmpEq kw "DFF".data 3) (hlen : args.length = 4) :
    ioReadBenchStmt st ln (t0 :: kw :: args) =
      .ok { st with net := { st.net with
        pis := st.net.pis ++ [t0],
        pos := st.net.pos ++ args.map (fun o => t0 ++ '_' :: o),
        nodes := st.net.nodes ++
          args.map (fun o => ⟨t0 ++ '_' :: o, [o], .buf⟩),
        nConstrs := st.net.nConstrs + 1 } } := by
  simp [strncmpEq] at h0 h1
  simp [ioReadBenchStmt, strncmpEq, h0, h1, h2, hlen]

theorem readStmt_dff_latch (st : RdState) (ln : Nat) (t0 kw : Str)
    (args : List Str)
    (h0 : ¬ strncmpEq t0 "INPUT".data 5) (h1 : ¬ strncmpEq t0 "OUTPUT".data 5)
    (h2 : strncmpEq kw "DFF".data 3) (hlen : args.length ≠ 4) :
    ioReadBenchStmt st ln (t0 :: kw :: args) =
      .ok { st with net := { st.net with
        latches := st.net.latches ++ [⟨t0, args.getD 0 [], dffInitOf kw⟩] } } := by
  simp [strncmpEq] at h0 h1
  simp [ioReadBenchStmt, strncmpEq, h0, h1, h2, hlen]

/-- Every successful `LUT` statement leaves the graph extended by exactly one
node (and sets the LUT flag); nothing else changes. -/
theorem ioReadBenchLut_ok_shape {st : RdState} {t0 hex : Str} {ins : List Str}
    {g' : RdState} (h : ioReadBenchLut st t0 hex ins = .ok g') :
    ∃ b : BNode,
      g' = { st with
              lutsPresent := true
              net := { st.net with nodes := st.net.nodes ++ [b] } } := by
  simp only [ioReadBenchLut] at h
  split at h
  · exact absurd h (by simp)
  · split at h
    · exact absurd h (by simp)
    · split at h
      · exact absurd h (by simp)
      · split at h
        · cases h
          exact ⟨_, rfl⟩
        · split at h
          · cases h
            exact ⟨_, rfl⟩
          · split at h
            · cases h
              exact ⟨_, rfl⟩
            · split at h
              · cases h
                exact ⟨_, rfl⟩
              · split at h
                · cases h
                  exact ⟨_, rfl⟩
                · exact absurd h (by simp)

/-- A successfully read hex digit is below 16. -/
theorem hexDigitVal_lt {c : Char} {d : Nat} (h : hexDigitVal c = some d) :
    d < 16 := by
  unfold hexDigitVal at h
  simp only [] at h
  have e0 : '0'.toNat = 48 := rfl
  have e9 : '9'.toNat = 57 := rfl
  have eA : 'A'.toNat = 65 := rfl
  have eF : 'F'.toNat = 70 := rfl
  have ea : 'a'.toNat = 97 := rfl
  have ef : 'f'.toNat = 102 := rfl
  split_ifs at h with h1 h2 h3 <;> injection h with h <;> subst h
  · rw [e0, e9] at h1
    omega
  · rw [eA, eF] at h2
    omega
  · rw [ea, ef] at h3
    omega

/-- The value of a one-digit hex string is below 16. -/
theorem readHexVal_single_lt {c : Char} {v : Nat}
    (h : readHexVal [c] = some v) : v < 16 := by
  simp only [readHexVal] at h
  cases hd : hexDigitVal c with
  | none => rw [hd] at h; simp at h
  | some d =>
    rw [hd] at h
    simp at h
    have := hexDigitVal_lt hd
    omega

/-- A `LUT` statement fails with the too-many-inputs error only above the
15-input bound. -/
theorem ioReadBenchLut_tooMany {st : RdState} {t0 hex : Str} {ins : List Str}
    {n : Nat} (h : ioReadBenchLut st t0 hex ins = .error (.lutTooManyIns n)) :
    15 < ins.length := by
  simp only [ioReadBenchLut] at h
  split at h
  · assumption
  · split at h
    · simp at h
    · split at h
      · simp at h
      · split at h
        · simp at h
        · split at h
          · simp at h
          · split at h
            · simp at h
            · split at h
              · simp at h
              · split at h
                · simp at h
                · simp at h

/-! ### C7 -/

/-- C7: a `LUT` declaration with more than 15 input operands fails with the
too-many-inputs format error; one whose third token does not begin with `"0x"`
fails with the bad-hex format error; and a declaration with at most 15 inputs
is never rejected on account of its input count. -/
theorem lut_guards (st : RdState) (ln : Nat) (y hex : Str) (ins : List Str)
    (h0 : ¬ strncmpEq y "INPUT".data 5) (h1 : ¬ strncmpEq y "OUTPUT".data 5) :
    (15 < ins.length →
      ioReadBenchStmt st ln (y :: "LUT".data :: hex :: ins) =
        .error (.lutTooManyIns ins.length)) ∧
    (ins.length ≤ 15 → ¬ strncmpEq hex "0x".data 2 →
      ioReadBenchStmt st ln (y :: "LUT".data :: hex :: ins) =
        .error (.lutBadHex hex)) ∧
    (ins.length ≤ 15 → ∀ n : Nat,
      ioReadBenchStmt st ln (y :: "LUT".data :: hex :: ins) ≠
        .error (.lutTooManyIns n)) := by
  rw [readStmt_lut st ln y (hex :: ins) h0 h1]
  simp only [List.getD_cons_zero, List.tail_cons]
  refine ⟨fun hgt => ?_, fun hle hhex => ?_, fun hle n heq => ?_⟩
  · simp [ioReadBenchLut, hgt]
  · simp [ioReadBenchLut, Nat.not_lt.mpr hle, hhex]
  · have := ioReadBenchLut_tooMany heq
    omega

/-- Witness for C7: 16 inputs are rejected with the count error; a non-`0x`
signature is rejected with the hex-format error. -/
theorem lut_guards_witness :
    ioReadBenchStmt rdInit 1
        ("y".data :: "LUT".data :: "0x8".data :: List.replicate 16 "a".data) =
      .error (.lutTooManyIns 16) ∧
    ioReadBenchStmt rdInit 1 ["y".data, "LUT".data, "zz".data, "a".data] =
      .error (.lutBadHex "zz".data) := by
  constructor
  · have h := (lut_guards rdInit 1 "y".data "0x8".data
      (List.replicate 16 "a".data) (by decide) (by decide)).1 (by decide)
    rw [h]
    rfl
  · exact (lut_guards rdInit 1 "y".data "zz".data ["a".data]
      (by decide) (by decide)).2.1 (by decide) (by decide)

/-! ### C8 -/

/-- C8: a statement whose second token begins with `"DFF"` either has exactly
4 trailing operands — then one primary input is created for the flop-output
net, and per operand one buffer node (driving the `flopOut_operand` net) plus
one paired primary output, with the constraint counter incremented by one — or
it creates a single latch whose initial-value tag is decided by the character
following `"DFF"` in the keyword (`'0'` → init-0, `'1'` → init-1, anything
else → don't-care). -/
theorem dff_statement (st : RdState) (ln : Nat) (t0 kw : Str) (args : List Str)
    (h0 : ¬ strncmpEq t0 "INPUT".data 5) (h1 : ¬ strncmpEq t0 "OUTPUT".data 5)
    (h2 : strncmpEq kw "DFF".data 3) :
    (args.length = 4 →
      ioReadBenchStmt st ln (t0 :: kw :: args) =
        .ok { st with net := { st.net with
          pis := st.net.pis ++ [t0],
          pos := st.net.pos ++ args.map (fun o => t0 ++ '_' :: o),
          nodes := st.net.nodes ++
            args.map (fun o => ⟨t0 ++ '_' :: o, [o], .buf⟩),
          nConstrs := st.net.nConstrs + 1 } }) ∧
    (args.length ≠ 4 → args ≠ [] →
      ioReadBenchStmt st ln (t0 :: kw :: args) =
        .ok { st with net := { st.net with
          latches := st.net.latches ++
            [⟨t0, args.getD 0 [],
              if (kw.drop 3).headD ' ' = '0' then .init0
              else if (kw.drop 3).headD ' ' = '1' then .init1
              else .dc⟩] } }) := by
  refine ⟨fun h => readStmt_dff_scan st ln t0 kw args h0 h1 h2 h,
    fun h _ => ?_⟩
  rw [readStmt_dff_latch st ln t0 kw args h0 h1 h2 h]
  rfl

/-- Witness for C8: a `DFFRSE` statement with 4 operands expands into the
scan-chain pattern; a `DFF1` statement with one operand creates an init-1
latch. -/
theorem dff_statement_witness :
    ioReadBenchStmt rdInit 1
        ["q".data, "DFFRSE".data, "a".data, "b".data, "c".data, "d".data] =
      .ok ⟨⟨["q".data], ["q_a".data, "q_b".data, "q_c".data, "q_d".data], [],
        [⟨"q_a".data, ["a".data], .buf⟩, ⟨"q_b".data, ["b".data], .buf⟩,
          ⟨"q_c".data, ["c".data], .buf⟩, ⟨"q_d".data, ["d".data], .buf⟩],
        1⟩, false⟩ ∧
    ioReadBenchStmt rdInit 1 ["q".data, "DFF1".data, "a".data] =
      .ok ⟨⟨[], [], [⟨"q".data, "a".data, .init1⟩], [], 0⟩, false⟩ := by
  constructor
  · have h := (dff_statement rdInit 1 "q".data "DFFRSE".data
      ["a".data, "b".data, "c".data, "d".data]
      (by decide) (by decide) (by decide)).1 (by decide)
    rw [h]
    rfl
  · have h := (dff_statement rdInit 1 "q".data "DFF1".data ["a".data]
      (by decide) (by decide) (by decide)).2 (by decide) (by decide)
    rw [h]
    rfl

/-! ### C5 -/

/-- C5 counterexample: `"And"`, a case variant of the listed keyword `AND`, is
*not* accepted — the dispatch fails with the unknown-gate error (carrying the
keyword and the line number) — while the all-uppercase spelling is. -/
theorem keyword_match_cx :
    ioReadBenchStmt rdInit 7 ["y".data, "And".data, "a".data, "b".data] =
      .error (.unknownGate "And".data 7) ∧
    ioReadBenchStmt rdInit 7 ["y".data, "AND".data, "a".data, "b".data] =
      .ok ⟨⟨[], [], [], [⟨"y".data, ["a".data, "b".data], .and⟩], 0⟩,
        false⟩ := by
  exact ⟨rfl, rfl⟩

set_option maxHeartbeats 1600000 in
/-- C5 amended: the keyword table accepts exactly the all-uppercase or
all-lowercase exact spellings of AND/OR/NAND/NOR/XOR/XNOR-NXOR/NOT plus exact
`"buf"`/`"mux"`, the upper-case 3-byte prefixes `BUF`/`MUX`, and the
lower-case 3-byte prefixes `gnd`/`vdd`; mixed-case variants match nothing, and
a keyword matching nothing makes the statement fail with a fatal error that
carries the keyword and its line number. -/
theorem keyword_match (st : RdState) (ln : Nat) (t0 kw : Str)
    (args : List Str)
    (h0 : ¬ strncmpEq t0 "INPUT".data 5) (h1 : ¬ strncmpEq t0 "OUTPUT".data 5)
    (h2 : ¬ strncmpEq kw "DFF".data 3) (h3 : kw ≠ "LUT".data) :
    (∀ t : Str, (matchKw t).isSome = acceptedKwSpecB t) ∧
    (acceptedKwSpecB kw = false →
      ioReadBenchStmt st ln (t0 :: kw :: args) =
        .error (.unknownGate kw ln)) := by
  have hchar : ∀ t : Str, (matchKw t).isSome = acceptedKwSpecB t := by
    intro t
    unfold matchKw acceptedKwSpecB
    split_ifs with hc1 hc2 hc3 hc4 hc5 hc6 hc7 hc8 hc9 hc10 hc11
    · rcases hc1 with rfl | rfl <;> decide
    · rcases hc2 with rfl | rfl <;> decide
    · rcases hc3 with rfl | rfl <;> decide
    · rcases hc4 with rfl | rfl <;> decide
    · rcases hc5 with rfl | rfl <;> decide
    · rcases hc6 with rfl | rfl | rfl | rfl <;> decide
    · rcases hc7 with hc7 | rfl
      · simp [strncmpEq] at hc7
        simp [hc7]
      · decide
    · rcases hc8 with rfl | rfl <;> decide
    · rcases hc9 with hc9 | rfl
      · simp [strncmpEq] at hc9
        simp [hc9]
      · decide
    · simp [strncmpEq] at hc10
      simp [hc10]
    · simp [strncmpEq] at hc11
      simp [hc11]
    · push_neg at hc1 hc2 hc3 hc4 hc5 hc6 hc7 hc8 hc9
      simp [strncmpEq] at hc7 hc9 hc10 hc11
      simp [hc1.1, hc1.2, hc2.1, hc2.2, hc3.1, hc3.2, hc4.1, hc4.2,
        hc5.1, hc5.2, hc6.1, hc6.2.1, hc6.2.2.1, hc6.2.2.2,
        hc7.1, hc7.2, hc8.1, hc8.2, hc9.1, hc9.2, hc10, hc11]
  refine ⟨hchar, fun hacc => ?_⟩
  rw [readStmt_gate st ln t0 kw args h0 h1 h2 h3]
  have : matchKw kw = none := by
    have := hchar kw
    rw [hacc] at this
    exact Option.not_isSome_iff_eq_none.mp (by simp [this])
  rw [this]

/-- Witness for C5: applying the characterization at the empty state and a
concrete unlisted keyword (`"Xyz"`), which is rejected with the line number. -/
theorem keyword_match_witness :
    ioReadBenchStmt rdInit 9 ["y".data, "Xyz".data, "a".data] =
      .error (.unknownGate "Xyz".data 9) := by
  exact (keyword_match rdInit 9 "y".data "Xyz".data ["a".data]
    (by decide) (by decide) (by decide) (by decide)).2 (by decide)

/-! ### C4 -/

/-- A single-input `LUT` statement can only succeed as a 0-input constant-0
node, a buffer, or an inverter. -/
theorem ioReadBenchLut_single {st : RdState} {t0 hex a : Str} {g' : RdState}
    (h : ioReadBenchLut st t0 hex [a] = .ok g') :
    g'.net.nodes = st.net.nodes ++ [⟨t0, [], .const0⟩] ∨
    g'.net.nodes = st.net.nodes ++ [⟨t0, [a], .buf⟩] ∨
    g'.net.nodes = st.net.nodes ++ [⟨t0, [a], .inv⟩] := by
  simp only [ioReadBenchLut] at h
  split at h
  · simp at h
  · split at h
    · simp at h
    · split at h
      · simp at h
      · rename_i val heq
        split at h
        · cases h
          exact Or.inl rfl
        · rename_i hne0
          split at h
          · rename_i hc1
            exfalso
            have hlut : lutDigits ([a] : List Str).length = 1 := by
              norm_num [lutDigits]
            rw [hlut] at heq
            norm_num [truthIsConst1, truthWordNum] at hc1
            rcases hp : padHex (hex.drop 2) 1 with _ | ⟨c, cs⟩
            · rw [hp] at heq
              simp [readHexVal] at heq
              omega
            · rw [hp] at heq
              simp only [List.take_succ_cons, List.take_zero] at heq
              have hb := readHexVal_single_lt heq
              omega
          · split at h
            · rename_i hgt
              simp at hgt
            · split at h
              · cases h
                exact Or.inr (Or.inl rfl)
              · split at h
                · cases h
                  exact Or.inr (Or.inr rfl)
                · simp at h

/-- C4: a 1-input LUT with table `0x2` is accepted as a buffer, `0x1` as an
inverter, `0x3` fails with the single-input format error, and in general a
single-input LUT statement can only succeed by producing a constant, buffer,
or inverter node. -/
theorem lut_single_input (st : RdState) (ln : Nat) (y a : Str)
    (h0 : ¬ strncmpEq y "INPUT".data 5) (h1 : ¬ strncmpEq y "OUTPUT".data 5) :
    ioReadBenchStmt st ln [y, "LUT".data, "0x2".data, a] =
      .ok { st with
            lutsPresent := true
            net := { st.net with
              nodes := st.net.nodes ++ [⟨y, [a], .buf⟩] } } ∧
    ioReadBenchStmt st ln [y, "LUT".data, "0x1".data, a] =
      .ok { st with
            lutsPresent := true
            net := { st.net with
              nodes := st.net.nodes ++ [⟨y, [a], .inv⟩] } } ∧
    ioReadBenchStmt st ln [y, "LUT".data, "0x3".data, a] =
      .error (.lutSingleIn "3".data) ∧
    (∀ (hex : Str) (g' : RdState),
      ioReadBenchStmt st ln [y, "LUT".data, hex, a] = .ok g' →
      g'.net.nodes = st.net.nodes ++ [⟨y, [], .const0⟩] ∨
      g'.net.nodes = st.net.nodes ++ [⟨y, [a], .buf⟩] ∨
      g'.net.nodes = st.net.nodes ++ [⟨y, [a], .inv⟩]) := by
  refine ⟨?_, ?_, ?_, ?_⟩
  · rw [readStmt_lut st ln y ["0x2".data, a] h0 h1]
    simp [ioReadBenchLut, lutDigits, padHex, readHexVal, hexDigitVal,
      truthIsConst1, truthWordNum]
  · rw [readStmt_lut st ln y ["0x1".data, a] h0 h1]
    simp [ioReadBenchLut, lutDigits, padHex, readHexVal, hexDigitVal,
      truthIsConst1, truthWordNum]
  · rw [readStmt_lut st ln y ["0x3".data, a] h0 h1]
    simp [ioReadBenchLut, lutDigits, padHex, readHexVal, hexDigitVal,
      truthIsConst1, truthWordNum]
  · intro hex g' h
    rw [readStmt_lut st ln y [hex, a] h0 h1] at h
    simp only [List.getD_cons_zero, List.tail_cons] at h
    exact ioReadBenchLut_single h

/-- Witness for C4 at concrete names: `0x2` gives a buffer node, `0x3` the
single-input format error. -/
theorem lut_single_input_witness :
    ioReadBenchStmt rdInit 1 ["y".data, "LUT".data, "0x2".data, "a".data] =
      .ok ⟨⟨[], [], [], [⟨"y".data, ["a".data], .buf⟩], 0⟩, true⟩ ∧
    ioReadBenchStmt rdInit 1 ["y".data, "LUT".data, "0x3".data, "a".data] =
      .error (.lutSingleIn "3".data) := by
  have h := lut_single_input rdInit 1 "y".data "a".data (by decide) (by decide)
  exact ⟨h.1.trans rfl, h.2.2.1⟩

/-! ### C3 -/

/-- C3 counterexample: the token `"OUTPUX"` is not the literal `"OUTPUT"`,
yet the statement is dispatched as a primary-output registration (the source
compares only the first 5 bytes); likewise `"INPUTX"` registers a primary
input. -/
theorem io_dispatch_cx :
    ioReadBenchStmt rdInit 1 ["OUTPUX".data, "z".data] =
      .ok ⟨⟨[], ["z".data], [], [], 0⟩, false⟩ ∧
    ioReadBenchStmt rdInit 1 ["INPUTX".data, "z".data] =
      .ok ⟨⟨["z".data], [], [], [], 0⟩, false⟩ ∧
    "OUTPUX".data ≠ "OUTPUT".data ∧ "INPUTX".data ≠ "INPUT".data := by
  exact ⟨rfl, rfl, by decide, by decide⟩

/-- C3 amended: a statement is dispatched as a primary-input registration iff
the first 5 bytes of its first token are `"INPUT"`, and as a primary-output
registration iff they are not `"INPUT"` but the first 5 bytes match
`"OUTPUT"` (i.e. they are `"OUTPU"`); in either case the second token is
registered and nothing else (no gate node) is created. -/
theorem io_dispatch (st : RdState) (ln : Nat) (ts : List Str)
    (hlen : ts.length ≠ 1) :
    (ioReadBenchStmt st ln ts =
        .ok { st with net := { st.net with
          pis := st.net.pis ++ [ts.getD 1 []] } } ↔
      strncmpEq (ts.getD 0 []) "INPUT".data 5) ∧
    (ioReadBenchStmt st ln ts =
        .ok { st with net := { st.net with
          pos := st.net.pos ++ [ts.getD 1 []] } } ↔
      (¬ strncmpEq (ts.getD 0 []) "INPUT".data 5 ∧
        strncmpEq (ts.getD 0 []) "OUTPUT".data 5)) := by
  obtain ⟨⟨p1, p2, p3, p4, p5⟩, lu⟩ := st
  rcases ts with _ | ⟨t0, ts1⟩
  · have hres : ioReadBenchStmt ⟨⟨p1, p2, p3, p4, p5⟩, lu⟩ ln [] =
        .error (.unknownGate [] ln) := rfl
    rw [hres]
    constructor
    · refine iff_of_false (fun h => by simp at h) (fun hr => ?_)
      simp [strncmpEq] at hr
    · refine iff_of_false (fun h => by simp at h) (fun hr => ?_)
      have := hr.2
      simp [strncmpEq] at this
  · rcases ts1 with _ | ⟨t1, rest⟩
    · simp at hlen
    · simp only [List.getD_cons_zero, List.getD_cons_succ]
      by_cases hin : strncmpEq t0 "INPUT".data 5
      · rw [readStmt_input _ ln t0 t1 rest hin]
        constructor
        · exact iff_of_true rfl hin
        · refine iff_of_false (fun h => by simp at h) (fun hr => hr.1 hin)
      · by_cases hout : strncmpEq t0 "OUTPUT".data 5
        · rw [readStmt_output _ ln t0 t1 rest hin hout]
          constructor
          · exact iff_of_false (fun h => by simp at h) hin
          · exact iff_of_true rfl ⟨hin, hout⟩
        · by_cases hdff : strncmpEq t1 "DFF".data 3
          · by_cases h4 : rest.length = 4
            · rw [readStmt_dff_scan _ ln t0 t1 rest hin hout hdff h4]
              exact ⟨iff_of_false (fun h => by simp at h) hin,
                iff_of_false (fun h => by simp at h) (fun hr => hout hr.2)⟩
            · rw [readStmt_dff_latch _ ln t0 t1 rest hin hout hdff h4]
              exact ⟨iff_of_false (fun h => by simp at h) hin,
                iff_of_false (fun h => by simp at h) (fun hr => hout hr.2)⟩
          · by_cases hlut : t1 = "LUT".data
            · subst hlut
              rw [readStmt_lut _ ln t0 rest hin hout]
              cases hres : ioReadBenchLut ⟨⟨p1, p2, p3, p4, p5⟩, lu⟩ t0
                  (rest.getD 0 []) rest.tail with
              | error e =>
                exact ⟨iff_of_false (fun h => by simp at h) hin,
                  iff_of_false (fun h => by simp at h) (fun hr => hout hr.2)⟩
              | ok g2 =>
                obtain ⟨b, rfl⟩ := ioReadBenchLut_ok_shape hres
                exact ⟨iff_of_false (fun h => by simp at h) hin,
                  iff_of_false (fun h => by simp at h) (fun hr => hout hr.2)⟩
            · rw [readStmt_gate _ ln t0 t1 rest hin hout hdff hlut]
              cases hmk : matchKw t1 with
              | some fn =>
                exact ⟨iff_of_false (fun h => by simp at h) hin,
                  iff_of_false (fun h => by simp at h) (fun hr => hout hr.2)⟩
              | none =>
                exact ⟨iff_of_false (fun h => by simp at h) hin,
                  iff_of_false (fun h => by simp at h) (fun hr => hout hr.2)⟩

/-- Witness for C3: a literal `INPUT` statement registers the named primary
input. -/
theorem io_dispatch_witness :
    ioReadBenchStmt rdInit 3 ["INPUT".data, "x".data] =
      .ok ⟨⟨["x".data], [], [], [], 0⟩, false⟩ := by
  have h := ((io_dispatch rdInit 3 ["INPUT".data, "x".data]
    (by decide)).1).mpr (by decide)
  exact h.trans rfl

/-! ### C9 -/

theorem flatMap_congr_mem {α β : Type} {l : List α} {f g : α → List β}
    (h : ∀ a ∈ l, f a = g a) : l.flatMap f = l.flatMap g := by
  induction l with
  | nil => rfl
  | cons a l ih =>
    simp only [List.flatMap_cons]
    rw [h a (List.mem_cons_self a l), ih (fun b hb => h b (List.mem_cons_of_mem a hb))]

/-- C9: for every graph meeting the serializer precondition (at most 2 fanins
per node), the emitted text is exactly: all primary inputs in order, then all
primary outputs, then all latches as `name = DFF(driver)`, then all nodes in
graph order — each node printed as `name = vdd` (0 inputs), `BUFF`/`NOT` by
function tag (1 input), or the `AND` spelling regardless of function tag
(2 inputs). -/
theorem write_emission (g : Netlist)
    (h : ∀ n ∈ g.nodes, n.fanins.length ≤ 2) :
    ioWriteBenchOne g = ioWriteBenchSpec g := by
  unfold ioWriteBenchOne ioWriteBenchSpec
  have hnode : ∀ n ∈ g.nodes, ioWriteBenchOneNode n = benchNodeLineSpec n := by
    intro n hn
    have hle := h n hn
    rcases n with ⟨out, fanins, fn⟩
    rcases fanins with _ | ⟨x, _ | ⟨y, _ | ⟨z, r⟩⟩⟩
    · simp [ioWriteBenchOneNode, benchNodeLineSpec]
    · by_cases hb : fn = GateFn.buf <;>
        simp [ioWriteBenchOneNode, benchNodeLineSpec, hb]
    · simp [ioWriteBenchOneNode, benchNodeLineSpec]
    · simp at hle
  rw [flatMap_congr_mem hnode]

/-- Witness for C9 on a graph containing a constant, a buffer, an inverter, a
2-input node, a latch, a primary input and a primary output. -/
theorem write_emission_witness :
    (∀ n ∈ (⟨["a".data], ["o".data], [⟨"q".data, "d".data, .dc⟩],
        [⟨"c".data, [], .const1⟩, ⟨"b".data, ["a".data], .buf⟩,
          ⟨"n".data, ["a".data], .inv⟩,
          ⟨"y".data, ["a".data, "b".data], .xor⟩], 0⟩ : Netlist).nodes,
      n.fanins.length ≤ 2) ∧
    ioWriteBenchOne ⟨["a".data], ["o".data], [⟨"q".data, "d".data, .dc⟩],
        [⟨"c".data, [], .const1⟩, ⟨"b".data, ["a".data], .buf⟩,
          ⟨"n".data, ["a".data], .inv⟩,
          ⟨"y".data, ["a".data, "b".data], .xor⟩], 0⟩ =
      ioWriteBenchSpec ⟨["a".data], ["o".data], [⟨"q".data, "d".data, .dc⟩],
        [⟨"c".data, [], .const1⟩, ⟨"b".data, ["a".data], .buf⟩,
          ⟨"n".data, ["a".data], .inv⟩,
          ⟨"y".data, ["a".data, "b".data], .xor⟩], 0⟩ := by
  refine ⟨by decide, write_emission _ (by decide)⟩

/-! ### C1: tokenizer computation lemmas -/

theorem takeWhile_all {p : Char → Bool} {l : List Char}
    (h : ∀ c ∈ l, p c = true) : l.takeWhile p = l := by
  induction l with
  | nil => rfl
  | cons c l ih =>
    rw [List.takeWhile_cons, h c (List.mem_cons_self c l),
      ih (fun d hd => h d (List.mem_cons_of_mem c hd))]
    rfl

theorem foldrStop_append {isSt : Char → Bool} {l rest : List Char} {nl : Char}
    (hnl : isSt nl = true) (hl : ∀ c ∈ l, isSt c = false) :
    List.foldr (stopStep isSt) ([], []) (l ++ nl :: rest) =
      (splitStops isSt rest, l) := by
  induction l with
  | nil =>
    simp only [List.nil_append, List.foldr_cons]
    simp [stopStep, hnl, splitStops]
  | cons c l ih =>
    have hc : isSt c = false := hl c (List.mem_cons_self c l)
    have ih' := ih (fun d hd => hl d (List.mem_cons_of_mem c hd))
    simp only [List.cons_append, List.foldr_cons, ih']
    simp [stopStep, hc]

theorem splitStops_append {isSt : Char → Bool} {l rest : List Char} {nl : Char}
    (hnl : isSt nl = true) (hl : ∀ c ∈ l, isSt c = false) :
    splitStops isSt (l ++ nl :: rest) = l :: splitStops isSt rest := by
  show (List.foldr (stopStep isSt) ([], []) (l ++ nl :: rest)).2 ::
      (List.foldr (stopStep isSt) ([], []) (l ++ nl :: rest)).1 =
    l :: splitStops isSt rest
  rw [foldrStop_append hnl hl]

theorem splitStops_joinLines {isSt : Char → Bool} {lines : List Str}
    {nl : Char} (hnl : isSt nl = true)
    (hl : ∀ l ∈ lines, ∀ c ∈ l, isSt c = false) :
    splitStops isSt (lines.flatMap (fun l => l ++ [nl])) = lines ++ [[]] := by
  induction lines with
  | nil => rfl
  | cons l ls ih =>
    simp only [List.flatMap_cons, List.append_assoc, List.singleton_append]
    rw [splitStops_append hnl (hl l (List.mem_cons_self l ls)),
      ih (fun m hm => hl m (List.mem_cons_of_mem l hm))]
    rfl

theorem foldrTok_nonclean {isCl : Char → Bool} {t cs : List Char}
    (ht : ∀ c ∈ t, isCl c = false) :
    List.foldr (tokStep isCl) ([], []) (t ++ cs) =
      ((List.foldr (tokStep isCl) ([], []) cs).1,
        t ++ (List.foldr (tokStep isCl) ([], []) cs).2) := by
  induction t with
  | nil => simp
  | cons c t ih =>
    have hc : isCl c = false := ht c (List.mem_cons_self c t)
    have ih' := ih (fun d hd => ht d (List.mem_cons_of_mem c hd))
    simp only [List.cons_append, List.foldr_cons, ih']
    simp [tokStep, hc]

theorem tokensOf_clean_cons {isCl : Char → Bool} {w : Char} {cs : List Char}
    (hw : isCl w = true) :
    tokensOf isCl (w :: cs) = tokensOf isCl cs := by
  show (if (tokStep isCl w (List.foldr (tokStep isCl) ([], []) cs)).2 = []
      then (tokStep isCl w (List.foldr (tokStep isCl) ([], []) cs)).1
      else _ :: _) = tokensOf isCl cs
  simp [tokStep, hw, tokensOf]

theorem tokensOf_cleanrun {isCl : Char → Bool} {ws cs : List Char}
    (hws : ∀ c ∈ ws, isCl c = true) :
    tokensOf isCl (ws ++ cs) = tokensOf isCl cs := by
  induction ws with
  | nil => rfl
  | cons w ws ih =>
    rw [List.cons_append,
      tokensOf_clean_cons (hws w (List.mem_cons_self w ws)),
      ih (fun d hd => hws d (List.mem_cons_of_mem w hd))]

theorem tokensOf_token {isCl : Char → Bool} {t : Str} {w : Char}
    {cs : List Char} (ht : t ≠ []) (htn : ∀ c ∈ t, isCl c = false)
    (hw : isCl w = true) :
    tokensOf isCl (t ++ w :: cs) = t :: tokensOf isCl cs := by
  have hf := @foldrTok_nonclean isCl t (w :: cs) htn
  have hw' : (List.foldr (tokStep isCl) ([], []) (w :: cs)) =
      (tokensOf isCl cs, []) := by
    simp only [List.foldr_cons]
    simp [tokStep, hw, tokensOf]
  rw [hw'] at hf
  show (if (List.foldr (tokStep isCl) ([], []) (t ++ w :: cs)).2 = []
      then (List.foldr (tokStep isCl) ([], []) (t ++ w :: cs)).1
      else _ :: _) = t :: tokensOf isCl cs
  rw [hf]
  simp [ht]

theorem tokensOf_token_run {isCl : Char → Bool} {t ws cs : List Char}
    (ht : t ≠ []) (htn : ∀ c ∈ t, isCl c = false) (hws : ws ≠ [])
    (hwsc : ∀ c ∈ ws, isCl c = true) :
    tokensOf isCl (t ++ (ws ++ cs)) = t :: tokensOf isCl cs := by
  rcases ws with _ | ⟨w, ws'⟩
  · exact absurd rfl hws
  · rw [List.cons_append,
      tokensOf_token ht htn (hwsc w (List.mem_cons_self w ws')),
      tokensOf_cleanrun (fun d hd => hwsc d (List.mem_cons_of_mem w hd))]

theorem tokensOf_last {isCl : Char → Bool} {t : Str} {w : Char}
    (ht : t ≠ []) (htn : ∀ c ∈ t, isCl c = false) (hw : isCl w = true) :
    tokensOf isCl (t ++ [w]) = [t] := by
  rw [show t ++ [w] = t ++ w :: [] from rfl, tokensOf_token ht htn hw]
  rfl

/-! ### C1: token vectors of the serialized lines -/

theorem forall_mem_app {p : Char → Prop} {l1 l2 : List Char}
    (h1 : ∀ c ∈ l1, p c) (h2 : ∀ c ∈ l2, p c) : ∀ c ∈ l1 ++ l2, p c := by
  intro c hc
  rcases List.mem_append.mp hc with h | h
  · exact h1 c h
  · exact h2 c h

theorem wfName_ne {nm : Str} (h : wfName nm = true) : nm ≠ [] := by
  simp only [wfName, Bool.and_eq_true] at h
  simpa using h.1

theorem wfName_normal {nm : Str} (h : wfName nm = true) :
    ∀ c ∈ nm, benchCfg.classOf c = .normal := by
  simp only [wfName, Bool.and_eq_true, List.all_eq_true] at h
  intro c hc
  simpa using h.2 c hc

theorem wfName_not_clean {nm : Str} (h : wfName nm = true) :
    ∀ c ∈ nm, decide (benchCfg.classOf c = ExtraCharType.clean) = false := by
  intro c hc
  simp [wfName_normal h c hc]

theorem wfName_comment_ok {nm : Str} (h : wfName nm = true) :
    ∀ c ∈ nm, (!decide (benchCfg.classOf c = ExtraCharType.comment)) = true := by
  intro c hc
  simp [wfName_normal h c hc]

theorem wfName_not_stop {nm : Str} (h : wfName nm = true) :
    ∀ c ∈ nm, decide (benchCfg.classOf c = ExtraCharType.stop) = false := by
  intro c hc
  simp [wfName_normal h c hc]

theorem replicate_space_clean (k : Nat) :
    ∀ c ∈ List.replicate k ' ',
      decide (benchCfg.classOf c = ExtraCharType.clean) = true := by
  intro c hc
  rw [List.eq_of_mem_replicate hc]
  decide

theorem replicate_space_comment_ok (k : Nat) :
    ∀ c ∈ List.replicate k ' ',
      (!decide (benchCfg.classOf c = ExtraCharType.comment)) = true := by
  intro c hc
  rw [List.eq_of_mem_replicate hc]
  decide

theorem replicate_space_not_stop (k : Nat) :
    ∀ c ∈ List.replicate k ' ',
      decide (benchCfg.classOf c = ExtraCharType.stop) = false := by
  intro c hc
  rw [List.eq_of_mem_replicate hc]
  decide

/-- Token vector of an `INPUT(nm)` / `OUTPUT(nm)` line. -/
theorem lineTokens_io (kw nm : Str) (hkw1 : kw ≠ [])
    (hkw2 : ∀ c ∈ kw, decide (benchCfg.classOf c = ExtraCharType.clean) = false)
    (hkw3 : ∀ c ∈ kw, (!decide (benchCfg.classOf c = ExtraCharType.comment)) = true)
    (hnm : wfName nm = true) :
    lineTokens benchCfg (kw ++ ['('] ++ nm ++ [')']) = [kw, nm] := by
  unfold lineTokens
  have hcm : ∀ c ∈ kw ++ ['('] ++ nm ++ [')'],
      (!decide (benchCfg.classOf c = ExtraCharType.comment)) = true := by
    refine forall_mem_app (forall_mem_app (forall_mem_app hkw3 ?_)
      (wfName_comment_ok hnm)) ?_ <;> decide
  rw [takeWhile_all hcm]
  rw [show kw ++ ['('] ++ nm ++ [')'] = kw ++ (['('] ++ (nm ++ [')'])) by simp]
  have hpar : ∀ c ∈ ['('],
      decide (benchCfg.classOf c = ExtraCharType.clean) = true := by decide
  have hrp : decide (benchCfg.classOf ')' = ExtraCharType.clean) = true := by
    decide
  rw [tokensOf_token_run hkw1 hkw2 (by simp) hpar]
  rw [tokensOf_last (wfName_ne hnm) (wfName_not_clean hnm) hrp]

theorem padTo11_comment_ok {out : Str} (hout : wfName out = true) :
    ∀ c ∈ padTo11 out,
      (!decide (benchCfg.classOf c = ExtraCharType.comment)) = true := by
  unfold padTo11
  exact forall_mem_app (wfName_comment_ok hout) (replicate_space_comment_ok _)

theorem padTo11_not_stop {out : Str} (hout : wfName out = true) :
    ∀ c ∈ padTo11 out,
      decide (benchCfg.classOf c = ExtraCharType.stop) = false := by
  unfold padTo11
  exact forall_mem_app (wfName_not_stop hout) (replicate_space_not_stop _)

/-- Token vector of a 1-fanin `BUFF` line. -/
theorem lineTokens_buf (out f0 : Str) (hout : wfName out = true)
    (hf0 : wfName f0 = true) :
    lineTokens benchCfg (padTo11 out ++ " = BUFF(".data ++ f0 ++ [')']) =
      [out, "BUFF".data, f0] := by
  unfold lineTokens
  have hcm : ∀ c ∈ padTo11 out ++ " = BUFF(".data ++ f0 ++ [')'],
      (!decide (benchCfg.classOf c = ExtraCharType.comment)) = true := by
    refine forall_mem_app (forall_mem_app (forall_mem_app
      (padTo11_comment_ok hout) ?_) (wfName_comment_ok hf0)) ?_ <;> decide
  rw [takeWhile_all hcm]
  rw [show padTo11 out ++ " = BUFF(".data ++ f0 ++ [')'] =
      out ++ ((List.replicate (11 - out.length) ' ' ++ " = ".data) ++
        ("BUFF".data ++ (['('] ++ (f0 ++ [')'])))) by simp [padTo11]]
  have hrun : ∀ c ∈ List.replicate (11 - out.length) ' ' ++ " = ".data,
      decide (benchCfg.classOf c = ExtraCharType.clean) = true :=
    forall_mem_app (replicate_space_clean _) (by decide)
  have hpar : ∀ c ∈ ['('],
      decide (benchCfg.classOf c = ExtraCharType.clean) = true := by decide
  have hrp : decide (benchCfg.classOf ')' = ExtraCharType.clean) = true := by
    decide
  rw [tokensOf_token_run (wfName_ne hout) (wfName_not_clean hout)
    (by simp) hrun]
  rw [tokensOf_token_run (show ("BUFF".data : Str) ≠ [] by decide)
    (by decide) (by simp) hpar]
  rw [tokensOf_last (wfName_ne hf0) (wfName_not_clean hf0) hrp]

/-- Token vector of a 1-fanin `NOT` line. -/
theorem lineTokens_not (out f0 : Str) (hout : wfName out = true)
    (hf0 : wfName f0 = true) :
    lineTokens benchCfg (padTo11 out ++ " = NOT(".data ++ f0 ++ [')']) =
      [out, "NOT".data, f0] := by
  unfold lineTokens
  have hcm : ∀ c ∈ padTo11 out ++ " = NOT(".data ++ f0 ++ [')'],
      (!decide (benchCfg.classOf c = ExtraCharType.comment)) = true := by
    refine forall_mem_app (forall_mem_app (forall_mem_app
      (padTo11_comment_ok hout) ?_) (wfName_comment_ok hf0)) ?_ <;> decide
  rw [takeWhile_all hcm]
  rw [show padTo11 out ++ " = NOT(".data ++ f0 ++ [')'] =
      out ++ ((List.replicate (11 - out.length) ' ' ++ " = ".data) ++
        ("NOT".data ++ (['('] ++ (f0 ++ [')'])))) by simp [padTo11]]
  have hrun : ∀ c ∈ List.replicate (11 - out.length) ' ' ++ " = ".data,
      decide (benchCfg.classOf c = ExtraCharType.clean) = true :=
    forall_mem_app (replicate_space_clean _) (by decide)
  have hpar : ∀ c ∈ ['('],
      decide (benchCfg.classOf c = ExtraCharType.clean) = true := by decide
  have hrp : decide (benchCfg.classOf ')' = ExtraCharType.clean) = true := by
    decide
  rw [tokensOf_token_run (wfName_ne hout) (wfName_not_clean hout)
    (by simp) hrun]
  rw [tokensOf_token_run (show ("NOT".data : Str) ≠ [] by decide)
    (by decide) (by simp) hpar]
  rw [tokensOf_last (wfName_ne hf0) (wfName_not_clean hf0) hrp]

/-- Token vector of a 2-fanin `AND` line. -/
theorem lineTokens_and (out f0 f1 : Str) (hout : wfName out = true)
    (hf0 : wfName f0 = true) (hf1 : wfName f1 = true) :
    lineTokens benchCfg
        (padTo11 out ++ " = AND(".data ++ f0 ++ ", ".data ++ f1 ++ [')']) =
      [out, "AND".data, f0, f1] := by
  unfold lineTokens
  have hcm : ∀ c ∈ padTo11 out ++ " = AND(".data ++ f0 ++ ", ".data ++ f1 ++
      [')'], (!decide (benchCfg.classOf c = ExtraCharType.comment)) = true := by
    refine forall_mem_app (forall_mem_app (forall_mem_app (forall_mem_app
      (forall_mem_app (padTo11_comment_ok hout) ?_) (wfName_comment_ok hf0))
      ?_) (wfName_comment_ok hf1)) ?_ <;> decide
  rw [takeWhile_all hcm]
  rw [show padTo11 out ++ " = AND(".data ++ f0 ++ ", ".data ++ f1 ++ [')'] =
      out ++ ((List.replicate (11 - out.length) ' ' ++ " = ".data) ++
        ("AND".data ++ (['('] ++ (f0 ++ (", ".data ++ (f1 ++ [')'])))))) by
    simp [padTo11]]
  have hrun : ∀ c ∈ List.replicate (11 - out.length) ' ' ++ " = ".data,
      decide (benchCfg.classOf c = ExtraCharType.clean) = true :=
    forall_mem_app (replicate_space_clean _) (by decide)
  have hpar : ∀ c ∈ ['('],
      decide (benchCfg.classOf c = ExtraCharType.clean) = true := by decide
  have hsep : ∀ c ∈ ", ".data,
      decide (benchCfg.classOf c = ExtraCharType.clean) = true := by decide
  have hrp : decide (benchCfg.classOf ')' = ExtraCharType.clean) = true := by
    decide
  rw [tokensOf_token_run (wfName_ne hout) (wfName_not_clean hout)
    (by simp) hrun]
  rw [tokensOf_token_run (show ("AND".data : Str) ≠ [] by decide)
    (by decide) (by simp) hpar]
  rw [tokensOf_token_run (wfName_ne hf0) (wfName_not_clean hf0)
    (by simp) hsep]
  rw [tokensOf_last (wfName_ne hf1) (wfName_not_clean hf1) hrp]

/-! ### C1: lines of the writer and their statements -/

theorem wfC1Node_parts {n : BNode} (h : wfC1Node n = true) :
    wfName n.out = true ∧ ¬ strncmpEq n.out "INPUT".data 5 ∧
    ¬ strncmpEq n.out "OUTPUT".data 5 ∧ (∀ f ∈ n.fanins, wfName f = true) ∧
    ((n.fn = GateFn.and ∧ n.fanins.length = 2) ∨
      ((n.fn = GateFn.buf ∨ n.fn = GateFn.inv) ∧ n.fanins.length = 1)) := by
  simp only [wfC1Node, Bool.and_eq_true, Bool.or_eq_true, List.all_eq_true,
    Bool.not_eq_true', decide_eq_false_iff_not, decide_eq_true_eq,
    beq_iff_eq] at h
  tauto

theorem lineTokens_c1Node {n : BNode} (hn : wfC1Node n = true) :
    lineTokens benchCfg (c1NodeLine n) = c1NodeTokens n := by
  obtain ⟨hout, _, _, hfan, hshape⟩ := wfC1Node_parts hn
  rcases hshape with ⟨hfn, hlen⟩ | ⟨hfn, hlen⟩
  · obtain ⟨f0, f1, hfe⟩ := List.length_eq_two.mp hlen
    have hg0 : n.fanins.getD 0 [] = f0 := by rw [hfe]; rfl
    have hg1 : n.fanins.getD 1 [] = f1 := by rw [hfe]; rfl
    unfold c1NodeLine c1NodeTokens
    rw [hfn, if_neg (by decide), if_neg (by decide), hg0, hg1, if_neg
      (by decide), if_neg (by decide), hfe]
    exact lineTokens_and n.out f0 f1 hout (hfan f0 (by rw [hfe]; simp))
      (hfan f1 (by rw [hfe]; simp))
  · obtain ⟨f0, hfe⟩ := List.length_eq_one.mp hlen
    have hg0 : n.fanins.getD 0 [] = f0 := by rw [hfe]; rfl
    have hf0 : wfName f0 = true := hfan f0 (by rw [hfe]; simp)
    rcases hfn with hb | hi
    · unfold c1NodeLine c1NodeTokens
      rw [hb, if_pos rfl, if_pos rfl, hg0, hfe]
      exact lineTokens_buf n.out f0 hout hf0
    · unfold c1NodeLine c1NodeTokens
      rw [hi, if_neg (by decide), if_pos rfl, if_neg (by decide),
        if_pos rfl, hg0, hfe]
      exact lineTokens_not n.out f0 hout hf0

theorem wfC1_parts {g : Netlist} (h : wfC1 g = true) :
    g.latches = [] ∧ (∀ nm ∈ g.pis, wfName nm = true) ∧
    (∀ nm ∈ g.pos, wfName nm = true) ∧
    (∀ n ∈ g.nodes, wfC1Node n = true) ∧
    (∀ nm ∈ g.pos ++ g.nodes.flatMap (·.fanins),
      nm ∈ g.pis ∨ nm ∈ g.nodes.map (·.out)) := by
  simp only [wfC1, Bool.and_eq_true, List.all_eq_true, List.isEmpty_iff,
    Bool.or_eq_true, decide_eq_true_eq] at h
  tauto

theorem map_lineTokens_c1 (g : Netlist) (hwf : wfC1 g = true) :
    (c1Lines g).map (lineTokens benchCfg) = c1Stmts g := by
  obtain ⟨_, hpis, hpos, hnodes, _⟩ := wfC1_parts hwf
  unfold c1Lines c1Stmts
  rw [List.map_append, List.map_append, List.map_map, List.map_map,
    List.map_map]
  congr 1
  congr 1
  · refine List.map_congr_left (fun nm hnm => ?_)
    exact lineTokens_io "INPUT".data nm (by decide) (by decide) (by decide)
      (hpis nm hnm)
  · refine List.map_congr_left (fun nm hnm => ?_)
    exact lineTokens_io "OUTPUT".data nm (by decide) (by decide) (by decide)
      (hpos nm hnm)
  · refine List.map_congr_left (fun n hn => ?_)
    exact lineTokens_c1Node (hnodes n hn)

theorem flatMap_map_congr {α : Type} {l : List α} {f : α → Str}
    {g : Str → Str} {h : α → Str} (he : ∀ a ∈ l, g (f a) = h a) :
    (l.map f).flatMap g = l.flatMap h := by
  induction l with
  | nil => rfl
  | cons a l ih =>
    simp only [List.map_cons, List.flatMap_cons]
    rw [he a (List.mem_cons_self a l),
      ih (fun b hb => he b (List.mem_cons_of_mem a hb))]

theorem write_as_lines (g : Netlist) (hwf : wfC1 g = true) :
    ioWriteBenchOne g = (c1Lines g).flatMap (fun l => l ++ ['\n']) := by
  obtain ⟨hlat, _, _, hnodes, _⟩ := wfC1_parts hwf
  unfold ioWriteBenchOne c1Lines
  rw [hlat]
  rw [List.flatMap_append, List.flatMap_append]
  rw [flatMap_map_congr (g := fun l => l ++ ['\n'])
    (h := fun n => "INPUT(".data ++ n ++ ")\n".data) (fun nm _ => by simp)]
  rw [flatMap_map_congr (g := fun l => l ++ ['\n'])
    (h := fun n => "OUTPUT(".data ++ n ++ ")\n".data) (fun nm _ => by simp)]
  rw [flatMap_map_congr (g := fun l => l ++ ['\n'])
    (h := ioWriteBenchOneNode) ?hnode]
  · simp
  case hnode =>
    intro n hn
    obtain ⟨_, _, _, _, hshape⟩ := wfC1Node_parts (hnodes n hn)
    rcases hshape with ⟨hfn, hlen⟩ | ⟨hfn, hlen⟩
    · obtain ⟨f0, f1, hfe⟩ := List.length_eq_two.mp hlen
      unfold c1NodeLine ioWriteBenchOneNode
      rw [hfn, if_neg (by decide), if_neg (by decide), hfe]
      simp
    · obtain ⟨f0, hfe⟩ := List.length_eq_one.mp hlen
      rcases hfn with hb | hi
      · unfold c1NodeLine ioWriteBenchOneNode
        rw [hb, if_pos rfl, hfe]
        simp
      · unfold c1NodeLine ioWriteBenchOneNode
        rw [hi, if_neg (by decide), if_pos rfl, hfe]
        simp [(by decide : ¬ (GateFn.inv = GateFn.buf))]

theorem c1Lines_no_stop {g : Netlist} (hwf : wfC1 g = true) :
    ∀ l ∈ c1Lines g, ∀ c ∈ l,
      decide (benchCfg.classOf c = ExtraCharType.stop) = false := by
  obtain ⟨_, hpis, hpos, hnodes, _⟩ := wfC1_parts hwf
  intro l hl
  unfold c1Lines at hl
  simp only [List.mem_append, List.mem_map] at hl
  rcases hl with (⟨nm, hnm, rfl⟩ | ⟨nm, hnm, rfl⟩) | ⟨n, hn, rfl⟩
  · exact forall_mem_app (forall_mem_app (forall_mem_app (by decide)
      (by decide)) (wfName_not_stop (hpis nm hnm))) (by decide)
  · exact forall_mem_app (forall_mem_app (forall_mem_app (by decide)
      (by decide)) (wfName_not_stop (hpos nm hnm))) (by decide)
  · obtain ⟨hout, _, _, hfan, hshape⟩ := wfC1Node_parts (hnodes n hn)
    rcases hshape with ⟨hfn, hlen⟩ | ⟨hfn, hlen⟩
    · obtain ⟨f0, f1, hfe⟩ := List.length_eq_two.mp hlen
      have hg0 : n.fanins.getD 0 [] = f0 := by rw [hfe]; rfl
      have hg1 : n.fanins.getD 1 [] = f1 := by rw [hfe]; rfl
      unfold c1NodeLine
      rw [hfn, if_neg (by decide), if_neg (by decide), hg0, hg1]
      exact forall_mem_app (forall_mem_app (forall_mem_app (forall_mem_app
        (forall_mem_app (padTo11_not_stop hout) (by decide))
        (wfName_not_stop (hfan f0 (by rw [hfe]; simp)))) (by decide))
        (wfName_not_stop (hfan f1 (by rw [hfe]; simp)))) (by decide)
    · obtain ⟨f0, hfe⟩ := List.length_eq_one.mp hlen
      have hg0 : n.fanins.getD 0 [] = f0 := by rw [hfe]; rfl
      have hf0 := wfName_not_stop (hfan f0 (by rw [hfe]; simp))
      rcases hfn with hb | hi
      · unfold c1NodeLine
        rw [hb, if_pos rfl, hg0]
        exact forall_mem_app (forall_mem_app (forall_mem_app
          (padTo11_not_stop hout) (by decide)) hf0) (by decide)
      · unfold c1NodeLine
        rw [hi, if_neg (by decide), if_pos rfl, hg0]
        exact forall_mem_app (forall_mem_app (forall_mem_app
          (padTo11_not_stop hout) (by decide)) hf0) (by decide)

theorem c1Stmts_ne_nil {g : Netlist} :
    ∀ t ∈ c1Stmts g, t ≠ ([] : List Str) := by
  intro t ht
  unfold c1Stmts at ht
  simp only [List.mem_append, List.mem_map] at ht
  rcases ht with (⟨nm, _, rfl⟩ | ⟨nm, _, rfl⟩) | ⟨n, _, rfl⟩
  · simp
  · simp
  · unfold c1NodeTokens
    simp

theorem withLines_append (xs : List (List Str)) (k : Nat)
    (ys : List (List Str)) :
    withLines k (xs ++ ys) = withLines k xs ++ withLines (k + xs.length) ys := by
  induction xs generalizing k with
  | nil => simp [withLines]
  | cons x xs ih =>
    simp only [List.cons_append, withLines, List.length_cons, List.append_eq,
      ih]
    have harith : k + (xs.length + 1) = k + 1 + xs.length := by omega
    rw [harith]

theorem filter_withLines {xs : List (List Str)} (k : Nat)
    (h : ∀ t ∈ xs, t ≠ []) :
    (withLines k xs).filter (fun s => !s.2.isEmpty) = withLines k xs := by
  induction xs generalizing k with
  | nil => rfl
  | cons x xs ih =>
    simp only [withLines, List.filter_cons]
    rw [if_pos (by simpa using h x (List.mem_cons_self x xs)),
      ih (k + 1) (fun t ht => h t (List.mem_cons_of_mem x ht))]

/-- Tokenizing the serialized text of a well-formed round-trip graph yields
exactly its statement stream, numbered from line 1. -/
theorem fileReaderTokens_c1 (g : Netlist) (hwf : wfC1 g = true) :
    fileReaderTokens benchCfg (ioWriteBenchOne g) = withLines 1 (c1Stmts g) := by
  rw [write_as_lines g hwf]
  unfold fileReaderTokens
  rw [splitStops_joinLines (by decide) (c1Lines_no_stop hwf)]
  rw [List.map_append, map_lineTokens_c1 g hwf]
  rw [withLines_append]
  rw [List.filter_append]
  rw [filter_withLines 1 c1Stmts_ne_nil]
  simp [withLines, lineTokens, tokensOf]

/-! ### C1: the statement loop on a serialized stream -/

theorem parseStmts_cons (st : RdState) (ln : Nat) (ts : List Str)
    (rest : List (Nat × List Str)) :
    ioReadBenchStmts st ((ln, ts) :: rest) =
      match ioReadBenchStmt st ln ts with
      | .error e => .error e
      | .ok st' => ioReadBenchStmts st' rest := rfl

theorem parseStmts_append (s1 s2 : List (Nat × List Str)) (st : RdState) :
    ioReadBenchStmts st (s1 ++ s2) =
      match ioReadBenchStmts st s1 with
      | .error e => .error e
      | .ok st' => ioReadBenchStmts st' s2 := by
  induction s1 generalizing st with
  | nil => rfl
  | cons s s1 ih =>
    obtain ⟨ln, ts⟩ := s
    rw [List.cons_append, parseStmts_cons, parseStmts_cons]
    cases ioReadBenchStmt st ln ts with
    | error e => rfl
    | ok st' => exact ih st'

theorem withLines_cons (k : Nat) (t : List Str) (ts : List (List Str)) :
    withLines k (t :: ts) = (k, t) :: withLines (k + 1) ts := rfl

theorem parseStmts_cons_ok {st st' : RdState} {ln : Nat} {ts : List Str}
    {rest : List (Nat × List Str)}
    (h : ioReadBenchStmt st ln ts = .ok st') :
    ioReadBenchStmts st ((ln, ts) :: rest) = ioReadBenchStmts st' rest := by
  rw [parseStmts_cons, h]

theorem parse_inputs (nms : List Str) (st : RdState) (k : Nat) :
    ioReadBenchStmts st
        (withLines k (nms.map (fun nm => ["INPUT".data, nm]))) =
      .ok { st with net := { st.net with pis := st.net.pis ++ nms } } := by
  induction nms generalizing st k with
  | nil => simp [withLines]; rfl
  | cons nm nms ih =>
    rw [List.map_cons, withLines_cons,
      parseStmts_cons_ok (readStmt_input st k "INPUT".data nm [] (by decide))]
    rw [ih]
    simp

theorem parse_outputs (nms : List Str) (st : RdState) (k : Nat) :
    ioReadBenchStmts st
        (withLines k (nms.map (fun nm => ["OUTPUT".data, nm]))) =
      .ok { st with net := { st.net with pos := st.net.pos ++ nms } } := by
  induction nms generalizing st k with
  | nil => simp [withLines]; rfl
  | cons nm nms ih =>
    rw [List.map_cons, withLines_cons, parseStmts_cons_ok
      (readStmt_output st k "OUTPUT".data nm [] (by decide) (by decide))]
    rw [ih]
    simp

theorem parse_c1Node (n : BNode) (hn : wfC1Node n = true) (st : RdState)
    (k : Nat) :
    ioReadBenchStmt st k (c1NodeTokens n) =
      .ok { st with net := { st.net with
        nodes := st.net.nodes ++ [n] } } := by
  obtain ⟨hout, hin, hou, hfan, hshape⟩ := wfC1Node_parts hn
  rcases n with ⟨o, fl, fn⟩
  simp only at hout hin hou hfan hshape
  rcases hshape with ⟨hfn, hlen⟩ | ⟨hfn, hlen⟩
  · obtain ⟨f0, f1, hfe⟩ := List.length_eq_two.mp hlen
    subst hfn hfe
    unfold c1NodeTokens
    rw [if_neg (by simp), if_neg (by simp)]
    rw [readStmt_gate st k o "AND".data [f0, f1] hin hou (by decide)
      (by decide)]
    rfl
  · obtain ⟨f0, hfe⟩ := List.length_eq_one.mp hlen
    subst hfe
    rcases hfn with hb | hi
    · subst hb
      unfold c1NodeTokens
      rw [if_pos rfl]
      rw [readStmt_gate st k o "BUFF".data [f0] hin hou (by decide)
        (by decide)]
      rfl
    · subst hi
      unfold c1NodeTokens
      rw [if_neg (by simp), if_pos rfl]
      rw [readStmt_gate st k o "NOT".data [f0] hin hou (by decide)
        (by decide)]
      rfl

theorem parse_nodes (nodes : List BNode) (st : RdState) (k : Nat)
    (h : ∀ n ∈ nodes, wfC1Node n = true) :
    ioReadBenchStmts st (withLines k (nodes.map c1NodeTokens)) =
      .ok { st with net := { st.net with
        nodes := st.net.nodes ++ nodes } } := by
  induction nodes generalizing st k with
  | nil => simp [withLines]; rfl
  | cons n nodes ih =>
    rw [List.map_cons, withLines_cons, parseStmts_cons_ok
      (parse_c1Node n (h n (List.mem_cons_self n nodes)) st k)]
    rw [ih _ _ (fun m hm => h m (List.mem_cons_of_mem n hm))]
    simp

/-! ### C1: finalize steps on a complete graph -/

theorem parseStmts_append_ok {st st' : RdState} {s1 : List (Nat × List Str)}
    (h : ioReadBenchStmts st s1 = .ok st') (s2 : List (Nat × List Str)) :
    ioReadBenchStmts st (s1 ++ s2) = ioReadBenchStmts st' s2 := by
  rw [parseStmts_append, h]

theorem constCheck_noFire {g : Netlist} {nm : Str} {fn : GateFn}
    (h : netExists g nm → netDriven g nm) : constCheck g nm fn = g := by
  unfold constCheck
  rw [if_neg]
  rintro ⟨he, hd⟩
  exact hd (h he)

theorem resolve_ok {g : Netlist}
    (h : ∀ n ∈ g.nodes.flatMap (·.fanins) ++ g.pos ++ g.latches.map (·.inp),
      netDriven g n) :
    ioReadBenchResolve g = .ok g := by
  unfold ioReadBenchResolve
  have hnone : (g.nodes.flatMap (·.fanins) ++ g.pos ++
      g.latches.map (·.inp)).find? (fun n => !decide (netDriven g n)) =
        none := by
    rw [List.find?_eq_none]
    intro x hx
    simp [h x hx]
  rw [hnone]

/-! ### C1 main theorems -/

/-- C1 counterexample: a graph built purely from a single BUFFER gate whose
output net is named `"INPUTX"` does not round-trip: the serialized statement
`INPUTX = BUFF(x)` is re-dispatched as a primary-input registration (5-byte
`strncmp`), so the re-parse fails with an unresolved reference instead of
reproducing the graph. -/
theorem bench_roundtrip_cx :
    ioReadBenchNetwork benchCfg
        (ioWriteBenchOne ⟨["x".data], ["INPUTX".data], [],
          [⟨"INPUTX".data, ["x".data], .buf⟩], 0⟩) =
      .error (.unresolved "INPUTX".data) := by
  rfl

/-- C1 amended: serialize-then-reparse reproduces the graph (same primary
inputs, outputs, latches and node structure) for every graph built purely
from 2-input AND and 1-input BUFFER/INVERTER gates whose net names are
non-empty, consist of Normal bytes of the bench configuration only, whose
node-output names do not begin with the 5-byte prefixes `INPUT`/`OUTPU`, and
in which every consumed net is driven. -/
theorem bench_roundtrip (g : Netlist) (hwf : wfC1 g = true) :
    ∃ g' : Netlist,
      ioReadBenchNetwork benchCfg (ioWriteBenchOne g) = .ok g' ∧
      g'.pis = g.pis ∧ g'.pos = g.pos ∧ g'.latches = g.latches ∧
      g'.nodes = g.nodes := by
  obtain ⟨hlat, hpis, hpos, hnodes, hcomp⟩ := wfC1_parts hwf
  have hparse : ioReadBenchStmts rdInit (withLines 1 (c1Stmts g)) =
      .ok ⟨⟨g.pis, g.pos, [], g.nodes, 0⟩, false⟩ := by
    unfold c1Stmts
    rw [List.append_assoc, withLines_append, withLines_append]
    rw [parseStmts_append_ok (parse_inputs g.pis rdInit 1)]
    rw [parseStmts_append_ok (parse_outputs g.pos _ _)]
    rw [parse_nodes g.nodes _ _ hnodes]
    rfl
  have hdr : ∀ nm, netExists (⟨g.pis, g.pos, [], g.nodes, 0⟩ : Netlist) nm →
      netDriven (⟨g.pis, g.pos, [], g.nodes, 0⟩ : Netlist) nm := by
    intro nm hex
    unfold netExists allNetNames at hex
    simp only [List.mem_append] at hex
    rcases hex with ((((hex | hex) | hex) | hex) | hex) | hex
    · exact Or.inl hex
    · rcases hcomp nm (List.mem_append_left _ hex) with h | h
      · exact Or.inl h
      · exact Or.inr (Or.inl h)
    · exact Or.inr (Or.inl hex)
    · rcases hcomp nm (List.mem_append_right _ hex) with h | h
      · exact Or.inl h
      · exact Or.inr (Or.inl h)
    · simp at hex
    · simp at hex
  have hconsts : ioReadBenchConsts ⟨g.pis, g.pos, [], g.nodes, 0⟩ =
      ⟨g.pis, g.pos, [], g.nodes, 0⟩ := by
    unfold ioReadBenchConsts
    rw [constCheck_noFire (hdr _), constCheck_noFire (hdr _),
      constCheck_noFire (hdr _), constCheck_noFire (hdr _)]
  have hres : ioReadBenchResolve (⟨g.pis, g.pos, [], g.nodes, 0⟩ : Netlist) =
      .ok ⟨g.pis, g.pos, [], g.nodes, 0⟩ := by
    apply resolve_ok
    intro n hn
    simp only [List.mem_append] at hn
    rcases hn with (hn | hn) | hn
    · rcases hcomp n (List.mem_append_right _ hn) with h | h
      · exact Or.inl h
      · exact Or.inr (Or.inl h)
    · rcases hcomp n (List.mem_append_left _ hn) with h | h
      · exact Or.inl h
      · exact Or.inr (Or.inl h)
    · simp at hn
  refine ⟨⟨g.pis, g.pos, [], g.nodes, 0⟩, ?_, rfl, rfl, hlat.symm, rfl⟩
  unfold ioReadBenchNetwork
  rw [fileReaderTokens_c1 g hwf, hparse]
  show ioReadBenchResolve (ioReadBenchConsts ⟨g.pis, g.pos, [], g.nodes, 0⟩) =
    .ok ⟨g.pis, g.pos, [], g.nodes, 0⟩
  rw [hconsts, hres]

/-- Witness for C1 on the concrete graph `c = AND(a, b)`. -/
theorem bench_roundtrip_witness :
    wfC1 ⟨["a".data, "b".data], ["c".data], [],
        [⟨"c".data, ["a".data, "b".data], .and⟩], 0⟩ = true ∧
    ∃ g' : Netlist,
      ioReadBenchNetwork benchCfg
          (ioWriteBenchOne ⟨["a".data, "b".data], ["c".data], [],
            [⟨"c".data, ["a".data, "b".data], .and⟩], 0⟩) =
        .ok g' ∧
      g'.pis = ["a".data, "b".data] ∧ g'.pos = ["c".data] ∧
      g'.latches = [] ∧
      g'.nodes = [⟨"c".data, ["a".data, "b".data], .and⟩] := by
  refine ⟨by decide, ?_⟩
  exact bench_roundtrip ⟨["a".data, "b".data], ["c".data], [],
    [⟨"c".data, ["a".data, "b".data], .and⟩], 0⟩ (by decide)
